import Mathlib

/-!
# Snippetbox: validator and middleware chain

A shallow embedding of `internal/validator/validator.go`, `cmd/web/helpers.go`,
`cmd/web/middleware.go`, `cmd/web/routes.go` and `cmd/web/templates.go`.

* Go maps are association lists with distinct keys; the nil map is `none`.
* A handler is a function from a request and a world to a result; the world holds the
  response writer, the two loggers and the state of the external collaborators.
* A panic is a result of its own, carrying the world as it was when the panic was raised.
-/

set_option autoImplicit false

namespace Snippetbox

/-! ## internal/validator -/

namespace validator

/-- The entries of a non-nil `map[string]string`, keys distinct, in insertion order. -/
abbrev Entries := List (String × String)

/-- Comma-ok lookup `m[key]` in the entries of a map. -/
def Entries.lookup : Entries → String → Option String
  | [], _ => none
  | (k, v) :: rest, key => if k = key then some v else Entries.lookup rest key

/-- Assignment `m[key] = value`: overwrites the entry of `key` or adds one. -/
def Entries.set : Entries → String → String → Entries
  | [], key, value => [(key, value)]
  | (k, v) :: rest, key, value =>
    if k = key then (k, value) :: rest else (k, v) :: Entries.set rest key value

/-- A `map[string]string`; `none` is the nil map. -/
abbrev GoMap := Option Entries

/-- Comma-ok lookup `v, exists := m[key]`; reading a nil map finds nothing. -/
def GoMap.lookup (m : GoMap) (key : String) : Option String :=
  match m with
  | none => none
  | some es => Entries.lookup es key

/-- Plain index expression `m[key]`: the zero value when the key is absent. -/
def GoMap.index (m : GoMap) (key : String) : String :=
  (GoMap.lookup m key).getD ""

/-- Builtin `len(m)`; the nil map has length 0. -/
def GoMap.len (m : GoMap) : Nat :=
  match m with
  | none => 0
  | some es => es.length

/-- The struct `Validator`. -/
structure Validator where
  NonFieldErrors : List String
  FieldErrors : GoMap
  deriving DecidableEq, Repr

/-- Method `Valid`. -/
def Validator.Valid (v : Validator) : Bool :=
  GoMap.len v.FieldErrors == 0 && v.NonFieldErrors.length == 0

/-- Method `AddNonFieldError`. -/
def Validator.AddNonFieldError (v : Validator) (message : String) : Validator :=
  { v with NonFieldErrors := v.NonFieldErrors ++ [message] }

/-- Method `AddFieldError`: the map is made first when it is nil, then the message is stored
unless the key has an entry already. -/
def Validator.AddFieldError (v : Validator) (key message : String) : Validator :=
  let es : Entries :=
    match v.FieldErrors with
    | none => []
    | some es => es
  match Entries.lookup es key with
  | none => { v with FieldErrors := some (Entries.set es key message) }
  | some _ => { v with FieldErrors := some es }

/-- Method `CheckField`. -/
def Validator.CheckField (v : Validator) (ok : Bool) (key message : String) : Validator :=
  if !ok then v.AddFieldError key message else v

end validator

/-! ## net/http: headers and the response writer

The parts of the standard library that the handlers call, modelled on their documented
behaviour. -/

namespace http

/-- The bytes allowed in a header field name (`textproto.validHeaderFieldByte`). -/
def validHeaderFieldByte (c : Char) : Bool :=
  c.isAlphanum || "!#$%&\x27*+-.^_\x60|~".data.contains c

/-- The loop of `textproto.canonicalMIMEHeaderKey`: upper case at the start and after a
hyphen, lower case elsewhere. -/
def canonicalLoop : Bool → List Char → List Char
  | _, [] => []
  | upper, c :: rest =>
    let c1 :=
      if upper && c.isLower then c.toUpper
      else if !upper && c.isUpper then c.toLower
      else c
    c1 :: canonicalLoop (c1 == '-') rest

/-- Library function `textproto.CanonicalMIMEHeaderKey`: a key with a byte that is not
allowed in a field name is returned as it is. -/
def CanonicalMIMEHeaderKey (s : String) : String :=
  if s.data.all validHeaderFieldByte then String.mk (canonicalLoop true s.data) else s

/-- The type `http.Header`, a `map[string][]string` (keys distinct). -/
abbrev Header := List (String × List String)

/-- Raw comma-ok lookup `h[key]`, the key taken as it is. -/
def Header.lookup : Header → String → Option (List String)
  | [], _ => none
  | (k, vs) :: rest, key => if k = key then some vs else Header.lookup rest key

/-- Raw assignment `h[key] = values`. -/
def Header.put : Header → String → List String → Header
  | [], key, values => [(key, values)]
  | (k, vs) :: rest, key, values =>
    if k = key then (k, values) :: rest else (k, vs) :: Header.put rest key values

/-- Method `Header.Set`: replaces the values of the canonical key by the one value. -/
def Header.Set (h : Header) (key value : String) : Header :=
  Header.put h (CanonicalMIMEHeaderKey key) [value]

/-- Method `Header.Add`: appends to the values of the canonical key. -/
def Header.Add (h : Header) (key value : String) : Header :=
  let k := CanonicalMIMEHeaderKey key
  Header.put h k ((Header.lookup h k).getD [] ++ [value])

/-- Method `Header.Del`: removes the canonical key. -/
def Header.Del (h : Header) (key : String) : Header :=
  h.filter (fun e => e.1 != CanonicalMIMEHeaderKey key)

/-- Method `Header.Values`: all values of the canonical key. -/
def Header.Values (h : Header) (key : String) : List String :=
  (Header.lookup h (CanonicalMIMEHeaderKey key)).getD []

/-- Method `Header.Get`: the first value of the canonical key, or the empty string. -/
def Header.Get (h : Header) (key : String) : String :=
  match Header.lookup h (CanonicalMIMEHeaderKey key) with
  | some (v :: _) => v
  | _ => ""

/-- A call that sends part of the response. -/
inductive WriterCall where
  | WriteHeader (statusCode : Int)
  | Write (data : String)
  deriving DecidableEq, Repr

/-- The interface `http.ResponseWriter` as the handlers see it: the header map returned by
`Header()`, and the `WriteHeader` and `Write` calls made so far, oldest first. -/
structure ResponseWriter where
  header : Header
  calls : List WriterCall
  deriving DecidableEq, Repr

/-- Method `WriteHeader`. -/
def ResponseWriter.WriteHeader (w : ResponseWriter) (statusCode : Int) : ResponseWriter :=
  { w with calls := w.calls ++ [WriterCall.WriteHeader statusCode] }

/-- Method `Write`. -/
def ResponseWriter.Write (w : ResponseWriter) (data : String) : ResponseWriter :=
  { w with calls := w.calls ++ [WriterCall.Write data] }

/-- The status the client gets: the code of the first `WriteHeader`, 200 when the first call
is a `Write`; `none` while nothing has been sent. -/
def ResponseWriter.status (w : ResponseWriter) : Option Int :=
  match w.calls with
  | [] => none
  | WriterCall.WriteHeader code :: _ => some code
  | WriterCall.Write _ :: _ => some 200

def StatusSeeOther : Int := 303
def StatusNotFound : Int := 404
def StatusInternalServerError : Int := 500

/-- Library function `http.StatusText`, on the codes the handlers use; empty otherwise. -/
def StatusText (code : Int) : String :=
  if code = 303 then "See Other"
  else if code = 400 then "Bad Request"
  else if code = 404 then "Not Found"
  else if code = 500 then "Internal Server Error"
  else ""

/-- Library function `http.Error`: it deletes `Content-Length` (as the library does since
Go 1.23), sets the plain-text content type and `nosniff`, writes the status code, then the
message and a newline. -/
def Error (w : ResponseWriter) (error : String) (code : Int) : ResponseWriter :=
  let h0 := Header.Del w.header "Content-Length"
  let h1 := Header.Set h0 "Content-Type" "text/plain; charset=utf-8"
  let h2 := Header.Set h1 "X-Content-Type-Options" "nosniff"
  let w1 := ResponseWriter.WriteHeader { w with header := h2 } code
  ResponseWriter.Write w1 (error ++ "\n")

/-- Values stored in a request context, as far as the handlers tell them apart. -/
inductive GoValue where
  | bool (b : Bool)
  | int (i : Int)
  | string (s : String)
  deriving DecidableEq, Repr

/-- Modelled from the spec: the declaration of `isAuthenticatedContextKey` is not among the
sources. It is the key under which the per-request authentication flag is attached to the
request context, and it differs from every other key. -/
inductive ContextKey where
  | isAuthenticatedContextKey
  | other (name : String)
  deriving DecidableEq, Repr

/-- A `context.Context`: the values bound by `context.WithValue`, innermost first. -/
abbrev Context := List (ContextKey × GoValue)

/-- Method `Value`: the innermost binding of the key. -/
def Context.Value : Context → ContextKey → Option GoValue
  | [], _ => none
  | (k, v) :: rest, key => if k = key then some v else Context.Value rest key

/-- Library function `context.WithValue`. -/
def Context.WithValue (ctx : Context) (key : ContextKey) (val : GoValue) : Context :=
  (key, val) :: ctx

/-- The fields of `*http.Request` that the handlers read. -/
structure Request where
  Method : String
  RequestURI : String
  Proto : String
  RemoteAddr : String
  ctx : Context
  deriving DecidableEq, Repr

/-- Method `Request.WithContext`. -/
def Request.WithContext (r : Request) (ctx : Context) : Request :=
  { r with ctx := ctx }

/-- Library function `http.Redirect`, for a target that is a rooted clean path without a
query (the handlers pass `/user/login`), on which path cleaning and escaping change
nothing: the `Location` header, a content type and a short HTML body when none was set
and the method calls for them, and the status code. -/
def Redirect (w : ResponseWriter) (r : Request) (url : String) (code : Int) : ResponseWriter :=
  let hadCT := (Header.lookup w.header "Content-Type").isSome
  let h1 := Header.Set w.header "Location" url
  let h2 :=
    if !hadCT && (r.Method == "GET" || r.Method == "HEAD") then
      Header.Set h1 "Content-Type" "text/html; charset=utf-8"
    else h1
  let w1 := ResponseWriter.WriteHeader { w with header := h2 } code
  if !hadCT && r.Method == "GET" then
    ResponseWriter.Write w1 ("<a href=\"" ++ url ++ "\">" ++ StatusText code ++ "</a>.\n" ++ "\n")
  else w1

end http

/-! ## Handlers, worlds and results -/

/-- Everything a handler can change: the response writer, what was sent to the error logger
and to the info logger, and the state `σ` of the external collaborators (database,
session store). -/
structure World (σ : Type) where
  w : http.ResponseWriter
  errorLog : List String
  infoLog : List String
  ext : σ
  deriving DecidableEq, Repr

/-- How a call `ServeHTTP(w, r)` ends: it returns, or it panics with a non-nil value
(rendered as text, as `%s` does). Either way the effects made up to that point stay. -/
inductive Result (σ : Type) where
  | done (world : World σ)
  | panic (value : String) (world : World σ)
  deriving DecidableEq, Repr

/-- The world at the end of a call. -/
def Result.world {σ : Type} : Result σ → World σ
  | Result.done world => world
  | Result.panic _ world => world

/-- An `http.Handler`. -/
abbrev Handler (σ : Type) := http.Request → World σ → Result σ

/-! ## github.com/justinas/alice -/

namespace alice

/-- The type `alice.Chain`: a list of middleware constructors. -/
structure Chain (σ : Type) where
  constructors : List (Handler σ → Handler σ)

/-- Function `alice.New`. -/
def New {σ : Type} (constructors : List (Handler σ → Handler σ)) : Chain σ :=
  { constructors := constructors }

/-- Method `Then`: the constructors are applied last to first, so the first one listed is
the outermost. -/
def Chain.Then {σ : Type} (c : Chain σ) (h : Handler σ) : Handler σ :=
  c.constructors.foldr (fun m acc => m acc) h

/-- Method `ThenFunc`. -/
def Chain.ThenFunc {σ : Type} (c : Chain σ) (fn : Handler σ) : Handler σ :=
  c.Then fn

/-- Method `Append`: a new chain with the given constructors after the old ones. -/
def Chain.Append {σ : Type} (c : Chain σ) (constructors : List (Handler σ → Handler σ)) :
    Chain σ :=
  { constructors := c.constructors ++ constructors }

end alice

/-! ## github.com/julienschmidt/httprouter -/

namespace httprouter

/-- One registered route. -/
structure Route (σ : Type) where
  method : String
  path : String
  handler : Handler σ

/-- The router as `routes` fills it: the not-found handler and the registered routes in the
order of registration. -/
structure Router (σ : Type) where
  NotFound : Option (Handler σ)
  routes : List (Route σ)

/-- Function `httprouter.New`. -/
def New {σ : Type} : Router σ :=
  { NotFound := none, routes := [] }

/-- Method `Handler`: registers a handler for a method and a path pattern. -/
def Router.Handler {σ : Type} (rt : Router σ) (method path : String) (handler : Handler σ) :
    Router σ :=
  { rt with routes := rt.routes ++ [{ method := method, path := path, handler := handler }] }

/-- Method `HandlerFunc`. -/
def Router.HandlerFunc {σ : Type} (rt : Router σ) (method path : String)
    (handler : Snippetbox.Handler σ) : Router σ :=
  rt.Handler method path handler

end httprouter

/-! ## cmd/web -/

namespace web

/-- The base cookie handed to the CSRF handler. -/
structure Cookie where
  HttpOnly : Bool
  Path : String
  Secure : Bool
  deriving DecidableEq, Repr

/-- What the session manager (`scs.SessionManager`) offers to this package. `GetInt` reads
the session data that `LoadAndSave` has bound to the request context and yields 0 when the
key is absent or not an integer; it is taken on requests that carry session data. -/
structure SessionManager (σ : Type) where
  GetInt : http.Context → String → Int
  LoadAndSave : Handler σ → Handler σ

/-- The part of `models.UserModelInterface` used here. `Exists` returns the pair
`(bool, error)`, the error being `none` for nil, and may change the external state. -/
structure UserModelInterface (σ : Type) where
  Exists : Int → σ → (Bool × Option String) × σ

/-- Library code the package calls and the sources do not contain. -/
structure Libs (σ : Type) where
  /-- The text returned by `debug.Stack()`. -/
  debugStack : String
  /-- The handler `nosurf.New(next)` after `SetBaseCookie(cookie)`. -/
  nosurfNew : Handler σ → Cookie → Handler σ
  /-- The method `ServeHTTP` of the router. -/
  routerServeHTTP : httprouter.Router σ → Handler σ
  /-- The handler `http.FileServer(http.FS(ui.Files))`. -/
  fileServer : Handler σ

/-- The business handlers, which the sources do not contain. -/
structure BusinessHandlers (σ : Type) where
  ping : Handler σ
  home : Handler σ
  snippetView : Handler σ
  userSignup : Handler σ
  userSignupPost : Handler σ
  userLogin : Handler σ
  userLoginPost : Handler σ
  snippetCreate : Handler σ
  snippetCreatePost : Handler σ
  userLogoutPost : Handler σ

/-- The struct `application`: the dependencies the middleware uses. The two loggers write
into the world. -/
structure application (σ : Type) where
  users : UserModelInterface σ
  sessionManager : SessionManager σ
  handlers : BusinessHandlers σ
  lib : Libs σ

variable {σ : Type}

/-- Method `serverError`: logs the message and the stack trace, then sends the generic 500
response. -/
def application.serverError (app : application σ) (world : World σ) (err : String) :
    World σ :=
  let trace := err ++ "\n" ++ app.lib.debugStack
  { world with
    errorLog := world.errorLog ++ [trace]
    w := http.Error world.w (http.StatusText http.StatusInternalServerError)
      http.StatusInternalServerError }

/-- Method `clientError`. -/
def application.clientError (_app : application σ) (world : World σ) (status : Int) :
    World σ :=
  { world with w := http.Error world.w (http.StatusText status) status }

/-- Method `notFound`. -/
def application.notFound (app : application σ) (world : World σ) : World σ :=
  app.clientError world http.StatusNotFound

/-- Method `isAuthenticated`: the context value under the key, asserted to be a bool. -/
def isAuthenticated (r : http.Request) : Bool :=
  match http.Context.Value r.ctx http.ContextKey.isAuthenticatedContextKey with
  | some (http.GoValue.bool b) => b
  | _ => false

/-- Middleware `secureHeaders`. -/
def secureHeaders (next : Handler σ) : Handler σ := fun r world =>
  let h1 := http.Header.Set world.w.header "Content-Security-Policy"
    "default-src 'self'; style-src 'self' fonts.googleapis.com; font-src fonts.gstatic.com"
  let h2 := http.Header.Set h1 "Referrer-Policy" "origin-when-cross-origin"
  let h3 := http.Header.Set h2 "X-Content-Type-Options" "nosniff"
  let h4 := http.Header.Set h3 "X-Frame-Options" "deny"
  let h5 := http.Header.Set h4 "X-XSS-Protection" "0"
  next r { world with w := { world.w with header := h5 } }

/-- Middleware `logRequest`. -/
def application.logRequest (_app : application σ) (next : Handler σ) : Handler σ :=
  fun r world =>
    let line := r.RemoteAddr ++ " - " ++ r.Proto ++ " " ++ r.Method ++ " " ++ r.RequestURI
    next r { world with infoLog := world.infoLog ++ [line] }

/-- Middleware `recoverPanic`: the deferred function runs when `next` has returned or
panicked; `recover()` yields the panic value only in the second case. -/
def application.recoverPanic (app : application σ) (next : Handler σ) : Handler σ :=
  fun r world =>
    match next r world with
    | Result.done world1 => Result.done world1
    | Result.panic err world1 =>
      let h := http.Header.Set world1.w.header "Connection" "close"
      Result.done (app.serverError { world1 with w := { world1.w with header := h } } err)

/-- Middleware `requireAuthentication`. -/
def application.requireAuthentication (_app : application σ) (next : Handler σ) :
    Handler σ := fun r world =>
  if !isAuthenticated r then
    Result.done { world with w := http.Redirect world.w r "/user/login" http.StatusSeeOther }
  else
    let h := http.Header.Add world.w.header "Cache-Control" "no-stroe"
    next r { world with w := { world.w with header := h } }

/-- Function `noSurf`: the CSRF handler around `next`, with the base cookie set. -/
def noSurf (lib : Libs σ) (next : Handler σ) : Handler σ :=
  lib.nosurfNew next { HttpOnly := true, Path := "/", Secure := true }

/-- Middleware `authenticate`. -/
def application.authenticate (app : application σ) (next : Handler σ) : Handler σ :=
  fun r world =>
    let id := app.sessionManager.GetInt r.ctx "authenticatedUserID"
    if id = 0 then next r world
    else
      match app.users.Exists id world.ext with
      | ((_, some err), ext1) => Result.done (app.serverError { world with ext := ext1 } err)
      | ((found, none), ext1) =>
        let r1 :=
          if found then
            r.WithContext
              (http.Context.WithValue r.ctx http.ContextKey.isAuthenticatedContextKey
                (http.GoValue.bool true))
          else r
        next r1 { world with ext := ext1 }

/-- The chain `standard` of `routes`: the middleware around the router, the outermost
first. -/
def application.standard (app : application σ) : alice.Chain σ :=
  alice.New [app.recoverPanic, app.logRequest, secureHeaders]

/-- The chain `dynamic` of `routes`. -/
def application.dynamic (app : application σ) : alice.Chain σ :=
  alice.New [app.sessionManager.LoadAndSave, noSurf app.lib, app.authenticate]

/-- The chain `protected` of `routes`: `dynamic` with `requireAuthentication` appended. -/
def application.protectedChain (app : application σ) : alice.Chain σ :=
  app.dynamic.Append [app.requireAuthentication]

/-- The router that `routes` fills. -/
def application.router (app : application σ) : httprouter.Router σ :=
  let router : httprouter.Router σ :=
    { (httprouter.New : httprouter.Router σ) with
      NotFound := some (fun _ world => Result.done (app.notFound world)) }
  let fileServer := app.lib.fileServer
  let router := router.Handler "GET" "/static/*filepath" fileServer
  let router := router.HandlerFunc "GET" "/ping" app.handlers.ping
  let dynamic := app.dynamic
  let router := router.Handler "GET" "/" (dynamic.ThenFunc app.handlers.home)
  let router := router.Handler "GET" "/snippet/view/:id" (dynamic.ThenFunc app.handlers.snippetView)
  let router := router.Handler "GET" "/user/signup" (dynamic.ThenFunc app.handlers.userSignup)
  let router := router.Handler "POST" "/user/signup" (dynamic.ThenFunc app.handlers.userSignupPost)
  let router := router.Handler "GET" "/user/login" (dynamic.ThenFunc app.handlers.userLogin)
  let router := router.Handler "POST" "/user/login" (dynamic.ThenFunc app.handlers.userLoginPost)
  let protectedChain := app.protectedChain
  let router := router.Handler "GET" "/snippet/create" (protectedChain.ThenFunc app.handlers.snippetCreate)
  let router := router.Handler "POST" "/snippet/create"
    (protectedChain.ThenFunc app.handlers.snippetCreatePost)
  router.Handler "POST" "/user/logout" (protectedChain.ThenFunc app.handlers.userLogoutPost)

/-- Method `routes`: the chain `standard` around the router. -/
def application.routes (app : application σ) : Handler σ :=
  app.standard.Then (app.lib.routerServeHTTP app.router)

end web

/-! ## A test application

Concrete handlers and collaborators on which the middleware can be run. The external state
is the list of the user ids that `Exists` was asked about. -/

namespace web

/-- The mock handler of `TestSecureHeaders`: writes the body `OK`. -/
def okHandler : Handler (List Int) := fun _ world =>
  Result.done { world with w := world.w.Write "OK" }

/-- A handler that writes whether it sees the request as authenticated. -/
def whoami : Handler (List Int) := fun r world =>
  Result.done
    { world with w := world.w.Write (if isAuthenticated r then "authenticated" else "anonymous") }

/-- A handler that panics before it writes anything. -/
def panicHandler : Handler (List Int) := fun _ world =>
  Result.panic "oops" world

/-- A user model in the manner of `mocks.UserModel`: user 1 exists, user 2 does not, and the
lookup of any other id fails. Every call is recorded. -/
def testUsers : UserModelInterface (List Int) where
  Exists := fun id ext =>
    if id = 1 then ((true, none), ext ++ [id])
    else if id = 2 then ((false, none), ext ++ [id])
    else ((false, some "sql: database is closed"), ext ++ [id])

/-- A session manager whose session data are the integers bound in the request context under
the name of the session key; `LoadAndSave` passes the request on. -/
def testSessionManager : SessionManager (List Int) where
  GetInt := fun ctx key =>
    match http.Context.Value ctx (http.ContextKey.other key) with
    | some (http.GoValue.int i) => i
    | _ => 0
  LoadAndSave := fun next => next

/-- A router that serves the first route whose method and path equal those of the request,
and the not-found handler otherwise. -/
def testServeHTTP (rt : httprouter.Router (List Int)) : Handler (List Int) := fun r world =>
  match rt.routes.find? (fun route => route.method == r.Method && route.path == r.RequestURI) with
  | some route => route.handler r world
  | none =>
    match rt.NotFound with
    | some h => h r world
    | none => Result.done { world with w := http.Error world.w "404 page not found" 404 }

/-- The test application. -/
def testApp : application (List Int) where
  users := testUsers
  sessionManager := testSessionManager
  handlers :=
    { ping := okHandler, home := whoami, snippetView := whoami, userSignup := whoami,
      userSignupPost := whoami, userLogin := whoami, userLoginPost := whoami,
      snippetCreate := whoami, snippetCreatePost := whoami, userLogoutPost := whoami }
  lib :=
    { debugStack := "goroutine 1 [running]:"
      nosurfNew := fun next _ => next
      routerServeHTTP := testServeHTTP
      fileServer := okHandler }

/-- A world in which nothing has happened yet. -/
def emptyWorld : World (List Int) :=
  { w := { header := [], calls := [] }, errorLog := [], infoLog := [], ext := [] }

/-- A request with the given method, path and context. -/
def newRequest (method path : String) (ctx : http.Context) : http.Request :=
  { Method := method, RequestURI := path, Proto := "HTTP/1.1", RemoteAddr := "127.0.0.1:4000",
    ctx := ctx }

/-- The context of a request whose session holds the given user id. -/
def sessionContext (id : Int) : http.Context :=
  [(http.ContextKey.other "authenticatedUserID", http.GoValue.int id)]

/-- The context of a request that `authenticate` has marked as authenticated. -/
def flaggedContext : http.Context :=
  [(http.ContextKey.isAuthenticatedContextKey, http.GoValue.bool true)]

end web

/-! ## cmd/web: rendering -/

namespace web

/-- A parsed template set (`*template.Template`) over data of type `δ`.
`ExecuteTemplate name data` is the call `ts.ExecuteTemplate(buf, name, data)` on a fresh
buffer: the text it writes into the buffer, which may be partial output when the execution
fails, and the error (`none` for nil). -/
structure Template (δ : Type) where
  ExecuteTemplate : String → δ → String × Option String

/-- Method `WriteTo` of `bytes.Buffer`, the buffer given by its content: one `Write` of the
whole content, and no call at all when the buffer is empty. -/
def bufferWriteTo (buf : String) (w : http.ResponseWriter) : http.ResponseWriter :=
  if buf = "" then w else w.Write buf

/-- Method `render`. The field `templateCache` of the application is given as the comma-ok
lookup of the map; `data` is the `*templateData`, which `render` only hands to the
template. After the error branch of `ExecuteTemplate` control goes on to `WriteHeader` and
`WriteTo`, as in the source. -/
def application.render {σ δ : Type} (app : application σ)
    (templateCache : String → Option (Template δ)) (world : World σ) (status : Int)
    (page : String) (data : δ) : World σ :=
  match templateCache page with
  | none => app.serverError world ("the template " ++ page ++ " does not exist")
  | some ts =>
    let executed := ts.ExecuteTemplate "base" data
    let buf := executed.1
    let world1 :=
      match executed.2 with
      | some err => app.serverError world err
      | none => world
    let w1 := world1.w.WriteHeader status
    { world1 with w := bufferWriteTo buf w1 }

/-- A template cache with a page that renders and a page whose execution fails after part
of the output has been written. -/
def testTemplateCache : String → Option (Template Unit) := fun page =>
  if page = "home.go.tpl" then
    some { ExecuteTemplate := fun _ _ => ("<html>home</html>", none) }
  else if page = "view.go.tpl" then
    some { ExecuteTemplate := fun _ _ =>
      ("<html><h1>", some "template: view.go.tpl:3:5: executing \"main\": nil pointer") }
  else none

end web

/-! ## unicode/utf8

A Go string is a sequence of bytes, which need not be valid UTF-8. `RuneCountInString`
follows the loop of the library, with its tables `first` and `acceptRanges`. -/

namespace utf8

/-- The bytes of a Go string. -/
abbrev Bytes := List Nat

def RuneSelf : Nat := 0x80
def locb : Nat := 0x80
def hicb : Nat := 0xBF

/-- The table entry `xx`: an invalid lead byte. -/
def xx : Nat := 0xF1

/-- The table `first`: for each lead byte, the size of the encoding in the low bits and the
index of the accept range in the high bits; `0xF0` for ASCII and `xx` for invalid bytes. -/
def first (c : Nat) : Nat :=
  if c < 0x80 then 0xF0
  else if c < 0xC2 then 0xF1
  else if c < 0xE0 then 0x02
  else if c = 0xE0 then 0x13
  else if c < 0xED then 0x03
  else if c = 0xED then 0x23
  else if c < 0xF0 then 0x03
  else if c = 0xF0 then 0x34
  else if c < 0xF4 then 0x04
  else if c = 0xF4 then 0x44
  else 0xF1

/-- The table `acceptRanges`: the range allowed for the second byte. -/
def acceptRanges (i : Nat) : Nat × Nat :=
  if i = 0 then (locb, hicb)
  else if i = 1 then (0xA0, hicb)
  else if i = 2 then (locb, 0x9F)
  else if i = 3 then (0x90, hicb)
  else if i = 4 then (locb, 0x8F)
  else (0, 0)

/-- One round of the loop of `RuneCountInString` at `s[i:] = c :: rest`: by how many bytes
`i` advances. An invalid or short sequence advances by one byte. -/
def advance (c : Nat) (rest : Bytes) : Nat :=
  if c < RuneSelf then 1
  else
    let x := first c
    if x = xx then 1
    else
      let size := x % 8
      if rest.length + 1 < size then 1
      else
        let accept := acceptRanges (x / 16)
        let c1 := rest.getD 0 0
        if c1 < accept.1 ∨ accept.2 < c1 then 1
        else if size = 2 then 2
        else
          let c2 := rest.getD 1 0
          if c2 < locb ∨ hicb < c2 then 1
          else if size = 3 then 3
          else
            let c3 := rest.getD 2 0
            if c3 < locb ∨ hicb < c3 then 1 else size

/-- The loop of `RuneCountInString`, one rune per round; the fuel bounds the rounds. -/
def runeCountLoop : Nat → Bytes → Nat
  | 0, _ => 0
  | _ + 1, [] => 0
  | fuel + 1, c :: rest => runeCountLoop fuel (rest.drop (advance c rest - 1)) + 1

/-- Library function `utf8.RuneCountInString`. Every round takes at least one byte, so the
length of the string is fuel enough. -/
def RuneCountInString (s : Bytes) : Nat :=
  runeCountLoop s.length s

/-- The UTF-8 encoding of one code point (`utf8.AppendRune` on a valid rune). -/
def EncodeRune (r : Char) : Bytes :=
  let v := r.val.toNat
  if v < 0x80 then [v]
  else if v < 0x800 then [0xC0 + v / 64, 0x80 + v % 64]
  else if v < 0x10000 then [0xE0 + v / 4096, 0x80 + v / 64 % 64, 0x80 + v % 64]
  else [0xF0 + v / 262144, 0x80 + v / 4096 % 64, 0x80 + v / 64 % 64, 0x80 + v % 64]

/-- The bytes of the Go string that holds a text, a sequence of code points. -/
def encode : List Char → Bytes
  | [] => []
  | r :: rs => EncodeRune r ++ encode rs

end utf8

namespace validator

/-- Function `MaxChars`, the string given by its bytes. -/
def MaxChars (value : utf8.Bytes) (n : Int) : Bool :=
  decide ((utf8.RuneCountInString value : Int) ≤ n)

/-- Function `MinChars`, the string given by its bytes. -/
def MinChars (value : utf8.Bytes) (n : Int) : Bool :=
  decide ((utf8.RuneCountInString value : Int) ≥ n)

end validator

/-! ## time

An instant is a number of seconds since January 1, year 1, 00:00:00 UTC, with the
nanoseconds within the second; a `Time` is an instant with a location. Locations have a
fixed offset, as `time.UTC` and `time.FixedZone` give them. Dates follow the proleptic
Gregorian calendar; the bounds of the machine integers are left out. -/

namespace time

/-- A `*time.Location` with a fixed offset, in seconds east of UTC. -/
structure Location where
  name : String
  offset : Int
  deriving DecidableEq, Repr

/-- The location `time.UTC`. -/
def UTC : Location :=
  { name := "UTC", offset := 0 }

/-- Function `time.FixedZone`. -/
def FixedZone (name : String) (offset : Int) : Location :=
  { name := name, offset := offset }

/-- The type `time.Time`. -/
structure Time where
  sec : Int
  nsec : Nat
  loc : Location
  deriving DecidableEq, Repr

/-- The zero value `time.Time{}`. -/
def zeroTime : Time :=
  { sec := 0, nsec := 0, loc := UTC }

/-- Method `IsZero`: the instant is January 1, year 1, 00:00:00 UTC. -/
def Time.IsZero (t : Time) : Bool :=
  t.sec == 0 && t.nsec == 0

/-- Method `UTC`: the same instant with the location set to UTC. -/
def Time.UTC (t : Time) : Time :=
  { t with loc := time.UTC }

/-- The number of days from January 1, year 1, to the given date. -/
def daysFromCivil (year month day : Int) : Int :=
  let y := if month ≤ 2 then year - 1 else year
  let era := y / 400
  let yoe := y - era * 400
  let mp := if month > 2 then month - 3 else month + 9
  let doy := (153 * mp + 2) / 5 + day - 1
  let doe := yoe * 365 + yoe / 4 - yoe / 100 + doy
  era * 146097 + doe - 306

/-- The date (year, month, day) that lies the given number of days after January 1,
year 1. -/
def civilFromDays (days : Int) : Int × Int × Int :=
  let z := days + 306
  let era := z / 146097
  let doe := z - era * 146097
  let yoe := (doe - doe / 1460 + doe / 36524 - doe / 146096) / 365
  let doy := doe - (365 * yoe + yoe / 4 - yoe / 100)
  let mp := (5 * doy + 2) / 153
  let day := doy - (153 * mp + 2) / 5 + 1
  let month := if mp < 10 then mp + 3 else mp - 9
  let year := yoe + era * 400 + (if month ≤ 2 then 1 else 0)
  (year, month, day)

/-- Function `time.Date`, for values in their usual ranges. -/
def Date (year month day hour min sec : Int) (nsec : Nat) (loc : Location) : Time :=
  { sec := daysFromCivil year month day * 86400 + hour * 3600 + min * 60 + sec - loc.offset
    nsec := nsec
    loc := loc }

/-- Function `appendInt` of package time: the decimal digits of the number, padded with
zeros to the width, after a minus sign when it is negative. -/
def appendInt (x : Int) (width : Nat) : String :=
  let digits := Nat.repr x.natAbs
  let padded := String.mk (List.replicate (width - digits.length) '0') ++ digits
  if x < 0 then "-" ++ padded else padded

/-- The first three letters of the English name of the month. -/
def shortMonthName (month : Int) : String :=
  if month = 1 then "Jan" else if month = 2 then "Feb" else if month = 3 then "Mar"
  else if month = 4 then "Apr" else if month = 5 then "May" else if month = 6 then "Jun"
  else if month = 7 then "Jul" else if month = 8 then "Aug" else if month = 9 then "Sep"
  else if month = 10 then "Oct" else if month = 11 then "Nov" else if month = 12 then "Dec"
  else ""

/-- The layout scan of `Format`, for the elements that the layout of `humaDate` uses:
`2006` is the year, `Jan` the short month name, `02` the day, `15` the hour and `04` the
minute, each number padded with zeros; any other character stands for itself. The other
layout elements of package time are not modelled. -/
def formatChunks (year month day hour min : Int) : List Char → String
  | '2' :: '0' :: '0' :: '6' :: rest =>
    appendInt year 4 ++ formatChunks year month day hour min rest
  | 'J' :: 'a' :: 'n' :: rest =>
    shortMonthName month ++ formatChunks year month day hour min rest
  | '0' :: '2' :: rest => appendInt day 2 ++ formatChunks year month day hour min rest
  | '1' :: '5' :: rest => appendInt hour 2 ++ formatChunks year month day hour min rest
  | '0' :: '4' :: rest => appendInt min 2 ++ formatChunks year month day hour min rest
  | c :: rest => String.singleton c ++ formatChunks year month day hour min rest
  | [] => ""

/-- Method `Format`: the date and the clock of the instant in the location of the time,
written as the layout says. -/
def Time.Format (t : Time) (layout : String) : String :=
  let abs := t.sec + t.loc.offset
  let date := civilFromDays (abs / 86400)
  let secs := abs % 86400
  formatChunks date.1 date.2.1 date.2.2 (secs / 3600) (secs % 3600 / 60) layout.data

end time

namespace web

/-- Function `humaDate`. -/
def humaDate (t : time.Time) : String :=
  if t.IsZero then "" else (t.UTC).Format "02 Jan 2006 at 15:04"

end web

/-! ## Validator: lemmas -/

namespace validator

theorem Entries.lookup_set_same (es : Entries) (key value : String) :
    Entries.lookup (Entries.set es key value) key = some value := by
  induction es with
  | nil => simp [Entries.set, Entries.lookup]
  | cons e rest ih =>
    obtain ⟨k, v⟩ := e
    by_cases h : k = key
    · simp [Entries.set, Entries.lookup, h]
    · simp [Entries.set, Entries.lookup, h, ih]

theorem Entries.lookup_set_other (es : Entries) (key value other : String) (h : other ≠ key) :
    Entries.lookup (Entries.set es key value) other = Entries.lookup es other := by
  induction es with
  | nil =>
    have h' : ¬ key = other := fun e => h e.symm
    simp [Entries.set, Entries.lookup, h']
  | cons e rest ih =>
    obtain ⟨k, v⟩ := e
    by_cases hk : k = key
    · subst hk
      have h' : ¬ k = other := fun e => h e.symm
      simp [Entries.set, Entries.lookup, h']
    · by_cases ho : k = other
      · subst ho
        simp [Entries.set, Entries.lookup, h]
      · simp [Entries.set, Entries.lookup, hk, ho, ih]

theorem Entries.lookup_eq_none_of_all (es : Entries)
    (h : ∀ key, Entries.lookup es key = none) : es = [] := by
  cases es with
  | nil => rfl
  | cons e rest =>
    obtain ⟨k, v⟩ := e
    have := h k
    simp [Entries.lookup] at this

/-- Once a key has an entry, `AddFieldError` changes nothing observable: every lookup and
the non-field errors stay as they were. -/
theorem AddFieldError_present (v : Validator) (key message m : String)
    (h : GoMap.lookup v.FieldErrors key = some m) :
    v.AddFieldError key message = v := by
  obtain ⟨nfe, fe⟩ := v
  cases fe with
  | none => simp [GoMap.lookup] at h
  | some es =>
    simp only [GoMap.lookup] at h
    simp [Validator.AddFieldError, h]

/-- C1: on a validator with no entry for the key (a nil map included), `AddFieldError`
stores the message under the key and touches nothing else; a second `AddFieldError` for
the same key with another message leaves the whole validator as it is, so the first message
stays and every other entry and the non-field errors are unchanged. -/
theorem AddFieldError_first_wins (v : Validator) (k m1 m2 : String)
    (h : GoMap.lookup v.FieldErrors k = none) :
    GoMap.lookup (v.AddFieldError k m1).FieldErrors k = some m1 ∧
    GoMap.index (v.AddFieldError k m1).FieldErrors k = m1 ∧
    (∀ other, other ≠ k →
      GoMap.lookup (v.AddFieldError k m1).FieldErrors other
        = GoMap.lookup v.FieldErrors other) ∧
    (v.AddFieldError k m1).NonFieldErrors = v.NonFieldErrors ∧
    (v.AddFieldError k m1).AddFieldError k m2 = v.AddFieldError k m1 ∧
    GoMap.index ((v.AddFieldError k m1).AddFieldError k m2).FieldErrors k = m1 := by
  have hsame : GoMap.lookup (v.AddFieldError k m1).FieldErrors k = some m1 := by
    obtain ⟨nfe, fe⟩ := v
    cases fe with
    | none => simp [Validator.AddFieldError, GoMap.lookup, Entries.lookup, Entries.set]
    | some es =>
      simp only [GoMap.lookup] at h
      simp [Validator.AddFieldError, GoMap.lookup, h, Entries.lookup_set_same]
  have hnoop : (v.AddFieldError k m1).AddFieldError k m2 = v.AddFieldError k m1 :=
    AddFieldError_present _ k m2 m1 hsame
  refine ⟨hsame, ?_, ?_, ?_, hnoop, ?_⟩
  · simp [GoMap.index, hsame]
  · intro other hne
    obtain ⟨nfe, fe⟩ := v
    cases fe with
    | none =>
      have h' : ¬ k = other := fun e => hne e.symm
      simp [Validator.AddFieldError, GoMap.lookup, Entries.lookup, Entries.set, h']
    | some es =>
      simp only [GoMap.lookup] at h
      simp [Validator.AddFieldError, GoMap.lookup, h, Entries.lookup_set_other _ _ _ _ hne]
  · obtain ⟨nfe, fe⟩ := v
    cases fe with
    | none => simp [Validator.AddFieldError, Entries.lookup]
    | some es =>
      simp only [GoMap.lookup] at h
      simp [Validator.AddFieldError, h]
  · rw [hnoop]
    simp [GoMap.index, hsame]

/-- Witness of C1 on the zero validator: `AddFieldError("email", "E1")` and then
`AddFieldError("email", "E2")`. -/
theorem AddFieldError_first_wins_witness :
    GoMap.lookup ({ NonFieldErrors := [], FieldErrors := none } : Validator).FieldErrors "email"
      = none ∧
    GoMap.index ((({ NonFieldErrors := [], FieldErrors := none } : Validator).AddFieldError
      "email" "E1").AddFieldError "email" "E2").FieldErrors "email" = "E1" :=
  ⟨rfl, (AddFieldError_first_wins { NonFieldErrors := [], FieldErrors := none }
    "email" "E1" "E2" rfl).2.2.2.2.2⟩

/-- C2: `Valid` is true exactly when no key has a field error (the nil map included) and
there is no non-field error. -/
theorem Valid_iff_both_empty (v : Validator) :
    v.Valid = true ↔
      (∀ key, GoMap.lookup v.FieldErrors key = none) ∧ v.NonFieldErrors = [] := by
  obtain ⟨nfe, fe⟩ := v
  cases fe with
  | none => simp [Validator.Valid, GoMap.len, GoMap.lookup]
  | some es =>
    constructor
    · intro hv
      simp only [Validator.Valid, GoMap.len, Bool.and_eq_true, beq_iff_eq,
        List.length_eq_zero] at hv
      obtain ⟨hes, hn⟩ := hv
      subst hes
      exact ⟨fun key => rfl, hn⟩
    · rintro ⟨hall, hn⟩
      have hes : es = [] := Entries.lookup_eq_none_of_all es (fun key => hall key)
      simp only at hn
      subst hes
      subst hn
      rfl

end validator

/-! ## Headers: lemmas -/

namespace http

theorem Header.lookup_put_same (h : Header) (key : String) (values : List String) :
    Header.lookup (Header.put h key values) key = some values := by
  induction h with
  | nil => simp [Header.put, Header.lookup]
  | cons e rest ih =>
    obtain ⟨k, vs⟩ := e
    by_cases hk : k = key
    · simp [Header.put, Header.lookup, hk]
    · simp [Header.put, Header.lookup, hk, ih]

theorem Header.lookup_put_other (h : Header) (key other : String) (values : List String)
    (hne : other ≠ key) :
    Header.lookup (Header.put h key values) other = Header.lookup h other := by
  induction h with
  | nil =>
    have h' : ¬ key = other := fun e => hne e.symm
    simp [Header.put, Header.lookup, h']
  | cons e rest ih =>
    obtain ⟨k, vs⟩ := e
    by_cases hk : k = key
    · subst hk
      have h' : ¬ k = other := fun e => hne e.symm
      simp [Header.put, Header.lookup, h']
    · by_cases ho : k = other
      · subst ho
        simp [Header.put, Header.lookup, hne]
      · simp [Header.put, Header.lookup, hk, ho, ih]

theorem Header.Get_Set_same (h : Header) (key value : String) :
    Header.Get (Header.Set h key value) key = value := by
  simp [Header.Get, Header.Set, Header.lookup_put_same]

theorem Header.Get_Set_other (h : Header) (key other value : String)
    (hne : CanonicalMIMEHeaderKey other ≠ CanonicalMIMEHeaderKey key) :
    Header.Get (Header.Set h key value) other = Header.Get h other := by
  simp [Header.Get, Header.Set, Header.lookup_put_other _ _ _ _ hne]

theorem Header.lookup_Set_other (h : Header) (key value k : String)
    (hne : k ≠ CanonicalMIMEHeaderKey key) :
    Header.lookup (Header.Set h key value) k = Header.lookup h k := by
  simp [Header.Set, Header.lookup_put_other _ _ _ _ hne]

theorem Header.Values_Add (h : Header) (key value : String) :
    Header.Values (Header.Add h key value) key = Header.Values h key ++ [value] := by
  simp [Header.Values, Header.Add, Header.lookup_put_same]

theorem Header.lookup_Add_other (h : Header) (key value k : String)
    (hne : k ≠ CanonicalMIMEHeaderKey key) :
    Header.lookup (Header.Add h key value) k = Header.lookup h k := by
  simp [Header.Add, Header.lookup_put_other _ _ _ _ hne]

/-- What `http.Error` leaves behind: the header of any other key, and two more calls. -/
theorem Error_calls (w : ResponseWriter) (error : String) (code : Int) :
    (Error w error code).calls
      = w.calls ++ [WriterCall.WriteHeader code, WriterCall.Write (error ++ "\n")] := by
  simp [Error, ResponseWriter.Write, ResponseWriter.WriteHeader]

theorem Header.lookup_Del_other (h : Header) (key k : String)
    (hne : k ≠ CanonicalMIMEHeaderKey key) :
    Header.lookup (Header.Del h key) k = Header.lookup h k := by
  induction h with
  | nil => rfl
  | cons e rest ih =>
    obtain ⟨k0, vs⟩ := e
    unfold Header.Del at ih ⊢
    by_cases h0 : k0 = CanonicalMIMEHeaderKey key
    · have hk : ¬ k0 = k := fun e => hne (e.symm.trans h0)
      simp only [List.filter, h0, bne_self_eq_false, Header.lookup]
      rw [ih, if_neg (by rw [← h0]; exact hk)]
    · have hb : (k0 != CanonicalMIMEHeaderKey key) = true := by simpa using h0
      simp only [List.filter, hb, Header.lookup, ih]

theorem Header.Get_Del_other (h : Header) (key other : String)
    (hne : CanonicalMIMEHeaderKey other ≠ CanonicalMIMEHeaderKey key) :
    Header.Get (Header.Del h key) other = Header.Get h other := by
  simp [Header.Get, Header.lookup_Del_other _ _ _ hne]

theorem Error_Get_other (w : ResponseWriter) (error : String) (code : Int) (key : String)
    (h0 : CanonicalMIMEHeaderKey key ≠ CanonicalMIMEHeaderKey "Content-Length")
    (h1 : CanonicalMIMEHeaderKey key ≠ CanonicalMIMEHeaderKey "Content-Type")
    (h2 : CanonicalMIMEHeaderKey key ≠ CanonicalMIMEHeaderKey "X-Content-Type-Options") :
    Header.Get (Error w error code).header key = Header.Get w.header key := by
  simp only [Error, ResponseWriter.Write, ResponseWriter.WriteHeader]
  rw [Header.Get_Set_other _ _ _ _ h2, Header.Get_Set_other _ _ _ _ h1,
    Header.Get_Del_other _ _ _ h0]

end http

/-! ## Middleware -/

namespace web

variable {σ : Type}

theorem Redirect_calls (w : http.ResponseWriter) (r : http.Request) (url : String)
    (code : Int) :
    ∃ rest, (http.Redirect w r url code).calls
      = w.calls ++ http.WriterCall.WriteHeader code :: rest := by
  unfold http.Redirect
  simp only [http.ResponseWriter.Write, http.ResponseWriter.WriteHeader]
  split
  · exact ⟨[http.WriterCall.Write
      ("<a href=\"" ++ url ++ "\">" ++ http.StatusText code ++ "</a>.\n" ++ "\n")], by simp⟩
  · exact ⟨[], by simp⟩

theorem Redirect_Location (w : http.ResponseWriter) (r : http.Request) (url : String)
    (code : Int) :
    http.Header.Get (http.Redirect w r url code).header "Location" = url := by
  have hne : http.CanonicalMIMEHeaderKey "Location"
      ≠ http.CanonicalMIMEHeaderKey "Content-Type" := by decide
  unfold http.Redirect
  simp only [http.ResponseWriter.Write, http.ResponseWriter.WriteHeader]
  split <;> split <;>
    simp [http.Header.Get_Set_same, http.Header.Get_Set_other _ _ _ _ hne]

theorem serverError_calls (app : application σ) (world : World σ) (err : String) :
    (app.serverError world err).w.calls
      = world.w.calls ++ [http.WriterCall.WriteHeader 500,
          http.WriterCall.Write "Internal Server Error\n"] := by
  simp only [application.serverError, http.Error_calls]
  rfl

theorem serverError_status (app : application σ) (world : World σ) (err : String)
    (h : world.w.calls = []) :
    (app.serverError world err).w.status = some 500 := by
  have hc := serverError_calls app world err
  simp [http.ResponseWriter.status, hc, h]

/-- C8: `secureHeaders(next)` is `next`, called once on the same request, in a world that
differs from the incoming one only in the header map, where the five security headers have
their fixed values and every other key is as before. Nothing is done after `next`, so the
status and the body are those of `next`, and the five headers stay in the response of any
`next` that leaves them alone, whether it returns or panics. -/
theorem secureHeaders_sets_fixed_headers (next : Handler σ) (r : http.Request)
    (world : World σ) :
    ∃ h : http.Header,
      secureHeaders next r world = next r { world with w := { world.w with header := h } } ∧
      http.Header.Get h "Content-Security-Policy"
        = "default-src 'self'; style-src 'self' fonts.googleapis.com; font-src fonts.gstatic.com" ∧
      http.Header.Get h "Referrer-Policy" = "origin-when-cross-origin" ∧
      http.Header.Get h "X-Content-Type-Options" = "nosniff" ∧
      http.Header.Get h "X-Frame-Options" = "deny" ∧
      http.Header.Get h "X-XSS-Protection" = "0" ∧
      (∀ k, k ∉ ["Content-Security-Policy", "Referrer-Policy", "X-Content-Type-Options",
          "X-Frame-Options", "X-Xss-Protection"] →
        http.Header.lookup h k = http.Header.lookup world.w.header k) ∧
      (∀ key, (∀ w0 : World σ,
          http.Header.Get (next r w0).world.w.header key = http.Header.Get w0.w.header key) →
        http.Header.Get (secureHeaders next r world).world.w.header key
          = http.Header.Get h key) := by
  have e1 : http.CanonicalMIMEHeaderKey "Content-Security-Policy" = "Content-Security-Policy" := by
    decide
  have e2 : http.CanonicalMIMEHeaderKey "Referrer-Policy" = "Referrer-Policy" := by decide
  have e3 : http.CanonicalMIMEHeaderKey "X-Content-Type-Options" = "X-Content-Type-Options" := by
    decide
  have e4 : http.CanonicalMIMEHeaderKey "X-Frame-Options" = "X-Frame-Options" := by decide
  have e5 : http.CanonicalMIMEHeaderKey "X-XSS-Protection" = "X-Xss-Protection" := by decide
  refine ⟨_, rfl, ?_, ?_, ?_, ?_, ?_, ?_, ?_⟩
  · rw [http.Header.Get_Set_other _ _ _ _ (by decide),
      http.Header.Get_Set_other _ _ _ _ (by decide),
      http.Header.Get_Set_other _ _ _ _ (by decide),
      http.Header.Get_Set_other _ _ _ _ (by decide), http.Header.Get_Set_same]
  · rw [http.Header.Get_Set_other _ _ _ _ (by decide),
      http.Header.Get_Set_other _ _ _ _ (by decide),
      http.Header.Get_Set_other _ _ _ _ (by decide), http.Header.Get_Set_same]
  · rw [http.Header.Get_Set_other _ _ _ _ (by decide),
      http.Header.Get_Set_other _ _ _ _ (by decide), http.Header.Get_Set_same]
  · rw [http.Header.Get_Set_other _ _ _ _ (by decide), http.Header.Get_Set_same]
  · rw [http.Header.Get_Set_same]
  · intro k hk
    simp only [List.mem_cons, List.mem_singleton, List.not_mem_nil, or_false, not_or] at hk
    obtain ⟨h1, h2, h3, h4, h5⟩ := hk
    rw [http.Header.lookup_Set_other _ _ _ _ (by rw [e5]; exact h5),
      http.Header.lookup_Set_other _ _ _ _ (by rw [e4]; exact h4),
      http.Header.lookup_Set_other _ _ _ _ (by rw [e3]; exact h3),
      http.Header.lookup_Set_other _ _ _ _ (by rw [e2]; exact h2),
      http.Header.lookup_Set_other _ _ _ _ (by rw [e1]; exact h1)]
  · intro key hkeep
    simp only [secureHeaders]
    rw [hkeep]

/-- The run of `TestSecureHeaders`: a `GET /` through `secureHeaders` around the handler that
writes `OK` leaves the five headers set, the body `OK` and the status 200. -/
theorem secureHeaders_test_run :
    (secureHeaders okHandler (newRequest "GET" "/" []) emptyWorld).world.w
      = { header :=
            [("Content-Security-Policy",
                ["default-src 'self'; style-src 'self' fonts.googleapis.com; font-src fonts.gstatic.com"]),
              ("Referrer-Policy", ["origin-when-cross-origin"]),
              ("X-Content-Type-Options", ["nosniff"]),
              ("X-Frame-Options", ["deny"]),
              ("X-Xss-Protection", ["0"])]
          calls := [http.WriterCall.Write "OK"] } ∧
    (secureHeaders okHandler (newRequest "GET" "/" []) emptyWorld).world.w.status
      = some 200 := by
  constructor <;> decide

/-- C9: when `next` panics, `recoverPanic(next)` returns normally, with `Connection: close`
set in the header map, the generic 500 response sent after whatever `next` had sent, and
the error with the stack trace logged; when `next` returns, `recoverPanic(next)` returns
the very world `next` left. -/
theorem recoverPanic_catches (app : application σ) (next : Handler σ) (r : http.Request)
    (world : World σ) :
    (∀ err world1, next r world = Result.panic err world1 →
      ∃ out, app.recoverPanic next r world = Result.done out ∧
        http.Header.Get out.w.header "Connection" = "close" ∧
        out.w.calls = world1.w.calls ++ [http.WriterCall.WriteHeader 500,
          http.WriterCall.Write "Internal Server Error\n"] ∧
        (world1.w.calls = [] → out.w.status = some 500) ∧
        out.errorLog = world1.errorLog ++ [err ++ "\n" ++ app.lib.debugStack] ∧
        out.infoLog = world1.infoLog ∧ out.ext = world1.ext) ∧
    (∀ world1, next r world = Result.done world1 →
      app.recoverPanic next r world = Result.done world1) := by
  constructor
  · intro err world1 hp
    refine ⟨app.serverError
      { world1 with
        w := { world1.w with header := http.Header.Set world1.w.header "Connection" "close" } }
      err, by simp only [application.recoverPanic, hp], ?_, ?_, ?_, rfl, rfl, rfl⟩
    · simp only [application.serverError]
      rw [http.Error_Get_other _ _ _ _ (by decide) (by decide) (by decide)]
      exact http.Header.Get_Set_same _ _ _
    · exact serverError_calls app _ err
    · intro h0
      exact serverError_status app _ err h0
  · intro world1 hd
    simp only [application.recoverPanic, hd]

/-- Witness of C9: the handler that panics at once, wrapped in `recoverPanic`. -/
theorem recoverPanic_catches_witness :
    panicHandler (newRequest "GET" "/" []) emptyWorld = Result.panic "oops" emptyWorld ∧
    ∃ out, testApp.recoverPanic panicHandler (newRequest "GET" "/" []) emptyWorld
        = Result.done out ∧
      http.Header.Get out.w.header "Connection" = "close" ∧
      out.w.calls = emptyWorld.w.calls ++ [http.WriterCall.WriteHeader 500,
        http.WriterCall.Write "Internal Server Error\n"] ∧
      (emptyWorld.w.calls = [] → out.w.status = some 500) ∧
      out.errorLog = emptyWorld.errorLog ++ ["oops" ++ "\n" ++ testApp.lib.debugStack] ∧
      out.infoLog = emptyWorld.infoLog ∧ out.ext = emptyWorld.ext :=
  ⟨rfl, (recoverPanic_catches testApp panicHandler (newRequest "GET" "/" []) emptyWorld).1
    "oops" emptyWorld rfl⟩

theorem isAuthenticated_eq_false_iff (r : http.Request) :
    isAuthenticated r = false ↔
      http.Context.Value r.ctx http.ContextKey.isAuthenticatedContextKey
        ≠ some (http.GoValue.bool true) := by
  unfold isAuthenticated
  split
  · next b hb => cases b <;> simp [hb]
  · next hnb =>
    constructor
    · intro _ hv
      exact hnb true hv
    · intro _
      rfl

/-- C3: with a non-zero user id in the session and an error from `users.Exists`, the call
ends with the generic 500 response sent and the error logged, and the outcome is the same
whatever the next handler is: it is not called. -/
theorem authenticate_fails_closed (app : application σ) (next : Handler σ) (r : http.Request)
    (world : World σ) (found : Bool) (err : String) (ext1 : σ)
    (hid : app.sessionManager.GetInt r.ctx "authenticatedUserID" ≠ 0)
    (hex : app.users.Exists (app.sessionManager.GetInt r.ctx "authenticatedUserID") world.ext
      = ((found, some err), ext1)) :
    ∃ out, app.authenticate next r world = Result.done out ∧
      (∀ other : Handler σ, app.authenticate other r world = Result.done out) ∧
      out.w.calls = world.w.calls ++ [http.WriterCall.WriteHeader 500,
        http.WriterCall.Write "Internal Server Error\n"] ∧
      (world.w.calls = [] → out.w.status = some 500) ∧
      out.errorLog = world.errorLog ++ [err ++ "\n" ++ app.lib.debugStack] ∧
      out.infoLog = world.infoLog ∧ out.ext = ext1 := by
  have key : ∀ other : Handler σ, app.authenticate other r world
      = Result.done (app.serverError { world with ext := ext1 } err) := by
    intro other
    simp only [application.authenticate, hid, if_false, hex]
  refine ⟨app.serverError { world with ext := ext1 } err, key next, key, ?_, ?_, rfl, rfl, rfl⟩
  · exact serverError_calls app _ err
  · intro h0
    exact serverError_status app _ err h0

/-- Witness of C3: user id 3 in the session, for which the test user model fails. -/
theorem authenticate_fails_closed_witness :
    testApp.sessionManager.GetInt (newRequest "GET" "/" (sessionContext 3)).ctx
      "authenticatedUserID" ≠ 0 ∧
    testApp.users.Exists
      (testApp.sessionManager.GetInt (newRequest "GET" "/" (sessionContext 3)).ctx
        "authenticatedUserID") emptyWorld.ext
      = ((false, some "sql: database is closed"), [3]) ∧
    ∃ out, testApp.authenticate whoami (newRequest "GET" "/" (sessionContext 3)) emptyWorld
        = Result.done out ∧
      (∀ other : Handler (List Int),
        testApp.authenticate other (newRequest "GET" "/" (sessionContext 3)) emptyWorld
          = Result.done out) ∧
      out.w.calls = emptyWorld.w.calls ++ [http.WriterCall.WriteHeader 500,
        http.WriterCall.Write "Internal Server Error\n"] ∧
      (emptyWorld.w.calls = [] → out.w.status = some 500) ∧
      out.errorLog = emptyWorld.errorLog
        ++ ["sql: database is closed" ++ "\n" ++ testApp.lib.debugStack] ∧
      out.infoLog = emptyWorld.infoLog ∧ out.ext = [3] :=
  ⟨by decide, by decide,
    authenticate_fails_closed testApp whoami (newRequest "GET" "/" (sessionContext 3))
      emptyWorld false "sql: database is closed" [3] (by decide) (by decide)⟩

/-- The middleware of this package other than `authenticate` hand the request on as it
came: `secureHeaders` and `logRequest` call `next` on it, `recoverPanic` returns what `next`
did on it or recovers its panic, and `requireAuthentication` calls `next` on it when it is
authenticated. So the key `isAuthenticatedContextKey` is bound by `authenticate` alone. -/
theorem middleware_keep_request (app : application σ) (next : Handler σ) (r : http.Request)
    (world : World σ) :
    (∃ world1, secureHeaders next r world = next r world1) ∧
    (∃ world1, app.logRequest next r world = next r world1) ∧
    (app.recoverPanic next r world = next r world
      ∨ ∃ err world1, next r world = Result.panic err world1) ∧
    (isAuthenticated r = true → ∃ world1, app.requireAuthentication next r world
      = next r world1) := by
  refine ⟨⟨_, rfl⟩, ⟨_, rfl⟩, ?_, ?_⟩
  · cases hn : next r world with
    | done world1 =>
      left
      simp only [application.recoverPanic, hn]
    | panic err world1 => exact Or.inr ⟨err, world1, rfl⟩
  · intro h
    refine ⟨{ world with
      w := { world.w with
        header := http.Header.Add world.w.header "Cache-Control" "no-stroe" } }, ?_⟩
    simp only [application.requireAuthentication, h]
    rfl

/-- C4: for a request as it reaches `authenticate`, with nothing bound yet under
`isAuthenticatedContextKey` (the key is bound by `authenticate` alone, which `routes`
composes once in a chain), and with no user id in the session, `authenticate(next)` is
`next`, called once on the same request in the same world; the request is seen as not
authenticated; and the outcome is the same whatever the user model is: `users.Exists` is
not called. -/
theorem authenticate_anonymous_passes_through (app : application σ) (next : Handler σ)
    (r : http.Request) (world : World σ)
    (hid : app.sessionManager.GetInt r.ctx "authenticatedUserID" = 0)
    (hnew : http.Context.Value r.ctx http.ContextKey.isAuthenticatedContextKey = none) :
    app.authenticate next r world = next r world ∧
    isAuthenticated r = false ∧
    (∀ users : UserModelInterface σ,
      ({ app with users := users } : application σ).authenticate next r world
        = next r world) := by
  refine ⟨?_, ?_, ?_⟩
  · simp only [application.authenticate, hid, if_true]
  · exact (isAuthenticated_eq_false_iff r).2 (by rw [hnew]; simp)
  · intro users
    simp only [application.authenticate, hid, if_true]

/-- Witness of C4: a request with an empty context; the user model is not asked, and the
next handler reports the request as anonymous. -/
theorem authenticate_anonymous_passes_through_witness :
    testApp.sessionManager.GetInt (newRequest "GET" "/" []).ctx "authenticatedUserID" = 0 ∧
    http.Context.Value (newRequest "GET" "/" []).ctx http.ContextKey.isAuthenticatedContextKey
      = none ∧
    testApp.authenticate whoami (newRequest "GET" "/" []) emptyWorld
      = whoami (newRequest "GET" "/" []) emptyWorld ∧
    whoami (newRequest "GET" "/" []) emptyWorld
      = Result.done { emptyWorld with
          w := { header := [], calls := [http.WriterCall.Write "anonymous"] } } :=
  ⟨by decide, by decide,
    (authenticate_anonymous_passes_through testApp whoami (newRequest "GET" "/" []) emptyWorld
      (by decide) (by decide)).1,
    by decide⟩

/-- C5: for a request as it reaches `authenticate`, with nothing bound yet under
`isAuthenticatedContextKey`, with a non-zero user id in the session and the answer
`(found, nil)` from `users.Exists`, `authenticate(next)` is `next`, called once, in a world
where nothing was written or logged, on a request that differs from the incoming one at
most in its context; `isAuthenticated` on that request equals `found`, and when the user
does not exist the request is the incoming one, unchanged. -/
theorem authenticate_resolves (app : application σ) (next : Handler σ) (r : http.Request)
    (world : World σ) (found : Bool) (ext1 : σ)
    (hid : app.sessionManager.GetInt r.ctx "authenticatedUserID" ≠ 0)
    (hex : app.users.Exists (app.sessionManager.GetInt r.ctx "authenticatedUserID") world.ext
      = ((found, none), ext1))
    (hnew : http.Context.Value r.ctx http.ContextKey.isAuthenticatedContextKey = none) :
    ∃ r1, app.authenticate next r world = next r1 { world with ext := ext1 } ∧
      isAuthenticated r1 = found ∧
      (found = false → r1 = r) ∧
      r1.Method = r.Method ∧ r1.RequestURI = r.RequestURI ∧ r1.Proto = r.Proto ∧
      r1.RemoteAddr = r.RemoteAddr := by
  have hr : isAuthenticated r = false :=
    (isAuthenticated_eq_false_iff r).2 (by rw [hnew]; simp)
  cases found with
  | false =>
    refine ⟨r, ?_, hr, fun _ => rfl, rfl, rfl, rfl, rfl⟩
    simp only [application.authenticate, hid, if_false, hex]
    rfl
  | true =>
    refine ⟨r.WithContext (http.Context.WithValue r.ctx
      http.ContextKey.isAuthenticatedContextKey (http.GoValue.bool true)),
      ?_, ?_, ?_, rfl, rfl, rfl, rfl⟩
    · simp only [application.authenticate, hid, if_false, hex]
      rfl
    · simp [isAuthenticated, http.Request.WithContext, http.Context.WithValue,
        http.Context.Value]
    · intro h
      cases h

/-- Witness of C5: user id 1 in the session, which the test user model knows, and user id
2, which it does not know. -/
theorem authenticate_resolves_witness :
    (testApp.sessionManager.GetInt (newRequest "GET" "/" (sessionContext 1)).ctx
      "authenticatedUserID" ≠ 0 ∧
    testApp.users.Exists
      (testApp.sessionManager.GetInt (newRequest "GET" "/" (sessionContext 1)).ctx
        "authenticatedUserID") emptyWorld.ext = ((true, none), [1]) ∧
    http.Context.Value (newRequest "GET" "/" (sessionContext 1)).ctx
      http.ContextKey.isAuthenticatedContextKey = none ∧
    ∃ r1, testApp.authenticate whoami (newRequest "GET" "/" (sessionContext 1)) emptyWorld
        = whoami r1 { emptyWorld with ext := [1] } ∧
      isAuthenticated r1 = true ∧
      (true = false → r1 = newRequest "GET" "/" (sessionContext 1)) ∧
      r1.Method = (newRequest "GET" "/" (sessionContext 1)).Method ∧
      r1.RequestURI = (newRequest "GET" "/" (sessionContext 1)).RequestURI ∧
      r1.Proto = (newRequest "GET" "/" (sessionContext 1)).Proto ∧
      r1.RemoteAddr = (newRequest "GET" "/" (sessionContext 1)).RemoteAddr) ∧
    (testApp.users.Exists
      (testApp.sessionManager.GetInt (newRequest "GET" "/" (sessionContext 2)).ctx
        "authenticatedUserID") emptyWorld.ext = ((false, none), [2]) ∧
    ∃ r1, testApp.authenticate whoami (newRequest "GET" "/" (sessionContext 2)) emptyWorld
        = whoami r1 { emptyWorld with ext := [2] } ∧
      isAuthenticated r1 = false ∧
      (false = false → r1 = newRequest "GET" "/" (sessionContext 2)) ∧
      r1.Method = (newRequest "GET" "/" (sessionContext 2)).Method ∧
      r1.RequestURI = (newRequest "GET" "/" (sessionContext 2)).RequestURI ∧
      r1.Proto = (newRequest "GET" "/" (sessionContext 2)).Proto ∧
      r1.RemoteAddr = (newRequest "GET" "/" (sessionContext 2)).RemoteAddr) :=
  ⟨⟨by decide, by decide, by decide,
    authenticate_resolves testApp whoami (newRequest "GET" "/" (sessionContext 1)) emptyWorld
      true [1] (by decide) (by decide) (by decide)⟩,
   ⟨by decide,
    authenticate_resolves testApp whoami (newRequest "GET" "/" (sessionContext 2)) emptyWorld
      false [2] (by decide) (by decide) (by decide)⟩⟩

/-- Runs of `authenticate` on the test application: the session of an existing user, of a
user that is gone, and no session id, as the next handler sees them. -/
theorem authenticate_test_run :
    testApp.authenticate whoami (newRequest "GET" "/" (sessionContext 1)) emptyWorld
      = Result.done { emptyWorld with
          w := { header := [], calls := [http.WriterCall.Write "authenticated"] },
          ext := ([1] : List Int) } ∧
    testApp.authenticate whoami (newRequest "GET" "/" (sessionContext 2)) emptyWorld
      = Result.done { emptyWorld with
          w := { header := [], calls := [http.WriterCall.Write "anonymous"] },
          ext := ([2] : List Int) } ∧
    testApp.authenticate whoami (newRequest "GET" "/" []) emptyWorld
      = Result.done { emptyWorld with
          w := { header := [], calls := [http.WriterCall.Write "anonymous"] } } := by
  refine ⟨by decide, by decide, by decide⟩

/-- C6: for a request that `isAuthenticated` reports as not authenticated,
`requireAuthentication(next)` sends the redirect of `http.Redirect` to `/user/login` with
status 303 and returns; the outcome is the same whatever the wrapped handler is: it is not
called. -/
theorem requireAuthentication_redirects_anonymous (app : application σ) (next : Handler σ)
    (r : http.Request) (world : World σ) (h : isAuthenticated r = false) :
    ∃ out, app.requireAuthentication next r world = Result.done out ∧
      (∀ other : Handler σ, app.requireAuthentication other r world = Result.done out) ∧
      out.w = http.Redirect world.w r "/user/login" 303 ∧
      http.Header.Get out.w.header "Location" = "/user/login" ∧
      (∃ rest, out.w.calls = world.w.calls ++ http.WriterCall.WriteHeader 303 :: rest) ∧
      (world.w.calls = [] → out.w.status = some 303) ∧
      out.errorLog = world.errorLog ∧ out.infoLog = world.infoLog ∧ out.ext = world.ext := by
  have key : ∀ other : Handler σ, app.requireAuthentication other r world
      = Result.done { world with w := http.Redirect world.w r "/user/login" 303 } := by
    intro other
    simp only [application.requireAuthentication, h]
    rfl
  refine ⟨{ world with w := http.Redirect world.w r "/user/login" 303 }, key next, key, rfl,
    Redirect_Location _ _ _ _, Redirect_calls _ _ _ _, ?_, rfl, rfl, rfl⟩
  intro h0
  obtain ⟨rest, hrest⟩ := Redirect_calls world.w r "/user/login" 303
  simp [http.ResponseWriter.status, hrest, h0]

/-- Witness of C6: a `GET /snippet/create` with an empty context. -/
theorem requireAuthentication_redirects_anonymous_witness :
    isAuthenticated (newRequest "GET" "/snippet/create" []) = false ∧
    ∃ out, testApp.requireAuthentication okHandler (newRequest "GET" "/snippet/create" [])
        emptyWorld = Result.done out ∧
      (∀ other : Handler (List Int),
        testApp.requireAuthentication other (newRequest "GET" "/snippet/create" []) emptyWorld
          = Result.done out) ∧
      out.w = http.Redirect emptyWorld.w (newRequest "GET" "/snippet/create" [])
        "/user/login" 303 ∧
      http.Header.Get out.w.header "Location" = "/user/login" ∧
      (∃ rest, out.w.calls = emptyWorld.w.calls ++ http.WriterCall.WriteHeader 303 :: rest) ∧
      (emptyWorld.w.calls = [] → out.w.status = some 303) ∧
      out.errorLog = emptyWorld.errorLog ∧ out.infoLog = emptyWorld.infoLog ∧
      out.ext = emptyWorld.ext :=
  ⟨by decide,
    requireAuthentication_redirects_anonymous testApp okHandler
      (newRequest "GET" "/snippet/create" []) emptyWorld (by decide)⟩

/-- For an authenticated request `requireAuthentication(next)` is `next` on the same request,
in a world where the value `no-stroe` has been added under `Cache-Control` and nothing else
has changed. -/
theorem requireAuthentication_authenticated (app : application σ) (next : Handler σ)
    (r : http.Request) (world : World σ) (h : isAuthenticated r = true) :
    ∃ hdr : http.Header,
      app.requireAuthentication next r world
        = next r { world with w := { world.w with header := hdr } } ∧
      http.Header.Values hdr "Cache-Control"
        = http.Header.Values world.w.header "Cache-Control" ++ ["no-stroe"] ∧
      (∀ k, k ≠ "Cache-Control" →
        http.Header.lookup hdr k = http.Header.lookup world.w.header k) := by
  have e : http.CanonicalMIMEHeaderKey "Cache-Control" = "Cache-Control" := by decide
  refine ⟨http.Header.Add world.w.header "Cache-Control" "no-stroe", ?_,
    http.Header.Values_Add _ _ _, ?_⟩
  · simp only [application.requireAuthentication, h]
    rfl
  · intro k hk
    exact http.Header.lookup_Add_other _ _ _ _ (by rw [e]; exact hk)

/-- C7, on the code: for an authenticated `GET /snippet/create` the wrapped handler is
called with the request, but the value the gate adds under `Cache-Control` is `no-stroe`,
not `no-store`. -/
theorem requireAuthentication_cache_control_value :
    isAuthenticated (newRequest "GET" "/snippet/create" flaggedContext) = true ∧
    testApp.requireAuthentication okHandler (newRequest "GET" "/snippet/create" flaggedContext)
        emptyWorld
      = okHandler (newRequest "GET" "/snippet/create" flaggedContext)
          { emptyWorld with
            w := { header := [("Cache-Control", ["no-stroe"])], calls := [] } } ∧
    http.Header.Values
        (testApp.requireAuthentication okHandler
          (newRequest "GET" "/snippet/create" flaggedContext) emptyWorld).world.w.header
        "Cache-Control" = ["no-stroe"] ∧
    http.Header.Get
        (testApp.requireAuthentication okHandler
          (newRequest "GET" "/snippet/create" flaggedContext) emptyWorld).world.w.header
        "Cache-Control" ≠ "no-store" := by
  refine ⟨by decide, by decide, by decide, by decide⟩

theorem Chain_Then_Append (c : alice.Chain σ) (m : Handler σ → Handler σ) (h : Handler σ) :
    (c.Append [m]).Then h = c.Then (m h) := by
  simp [alice.Chain.Then, alice.Chain.Append, List.foldr_append]

/-- With `authenticate` around `requireAuthentication`, the gate decides on what
`authenticate` has resolved: the session of an existing user reaches the wrapped handler,
marked as authenticated. -/
theorem authenticate_then_gate_passes (app : application σ) (h : Handler σ)
    (r : http.Request) (world : World σ) (ext1 : σ)
    (hid : app.sessionManager.GetInt r.ctx "authenticatedUserID" ≠ 0)
    (hex : app.users.Exists (app.sessionManager.GetInt r.ctx "authenticatedUserID") world.ext
      = ((true, none), ext1)) :
    ∃ r1 world1, app.authenticate (app.requireAuthentication h) r world = h r1 world1 ∧
      isAuthenticated r1 = true ∧ world1.w.calls = world.w.calls ∧ world1.ext = ext1 := by
  have hr : isAuthenticated (r.WithContext (http.Context.WithValue r.ctx
      http.ContextKey.isAuthenticatedContextKey (http.GoValue.bool true))) = true := by
    simp [isAuthenticated, http.Request.WithContext, http.Context.WithValue,
      http.Context.Value]
  refine ⟨r.WithContext (http.Context.WithValue r.ctx
      http.ContextKey.isAuthenticatedContextKey (http.GoValue.bool true)),
    { world with
      ext := ext1
      w := { world.w with
        header := http.Header.Add world.w.header "Cache-Control" "no-stroe" } },
    ?_, hr, rfl, rfl⟩
  simp only [application.authenticate, hid, if_false, hex, if_true]
  simp only [application.requireAuthentication, hr]
  rfl

/-- With `authenticate` around `requireAuthentication`, a request without a session id and
without the flag is redirected by the gate and does not reach the wrapped handler. -/
theorem authenticate_then_gate_redirects (app : application σ) (h : Handler σ)
    (r : http.Request) (world : World σ)
    (hid : app.sessionManager.GetInt r.ctx "authenticatedUserID" = 0)
    (hnew : http.Context.Value r.ctx http.ContextKey.isAuthenticatedContextKey = none) :
    app.authenticate (app.requireAuthentication h) r world
      = Result.done { world with w := http.Redirect world.w r "/user/login" 303 } := by
  have hr : isAuthenticated r = false :=
    (isAuthenticated_eq_false_iff r).2 (by rw [hnew]; simp)
  simp only [application.authenticate, hid, if_true]
  simp only [application.requireAuthentication, hr]
  rfl

/-- C10: the chain `standard` lists `recoverPanic`, `logRequest`, `secureHeaders` in this
order, `dynamic` lists `LoadAndSave`, `noSurf`, `authenticate`, and `protected` is `dynamic`
followed by `requireAuthentication`; a chain wraps a handler with the first constructor
outermost, whatever the constructors are. So `routes` is
`recoverPanic(logRequest(secureHeaders(router)))` for every request and no panic leaves it;
the router holds the static and the ping route bare, the six dynamic routes as
`LoadAndSave(noSurf(authenticate(handler)))` and the three protected routes as
`LoadAndSave(noSurf(authenticate(requireAuthentication(handler))))`. `logRequest` logs the
request line and calls the next handler, `noSurf` is the CSRF handler with the base cookie,
and the gate decides on what `authenticate` has resolved before it. -/
theorem routes_middleware_order (app : application σ) :
    app.standard.constructors = [app.recoverPanic, app.logRequest, secureHeaders] ∧
    app.dynamic.constructors
      = [app.sessionManager.LoadAndSave, noSurf app.lib, app.authenticate] ∧
    app.protectedChain.constructors
      = [app.sessionManager.LoadAndSave, noSurf app.lib, app.authenticate,
          app.requireAuthentication] ∧
    (∀ (a b c : Handler σ → Handler σ) (h : Handler σ),
      (alice.New [a, b, c]).Then h = a (b (c h))) ∧
    (∀ (a b c d : Handler σ → Handler σ) (h : Handler σ),
      ((alice.New [a, b, c]).Append [d]).ThenFunc h = a (b (c (d h)))) ∧
    app.routes = app.standard.Then (app.lib.routerServeHTTP app.router) ∧
    app.routes = app.recoverPanic (app.logRequest (secureHeaders
      (app.lib.routerServeHTTP app.router))) ∧
    app.router.routes =
      [ { method := "GET", path := "/static/*filepath", handler := app.lib.fileServer },
        { method := "GET", path := "/ping", handler := app.handlers.ping },
        { method := "GET", path := "/"
          handler := app.sessionManager.LoadAndSave
            (noSurf app.lib (app.authenticate app.handlers.home)) },
        { method := "GET", path := "/snippet/view/:id"
          handler := app.sessionManager.LoadAndSave
            (noSurf app.lib (app.authenticate app.handlers.snippetView)) },
        { method := "GET", path := "/user/signup"
          handler := app.sessionManager.LoadAndSave
            (noSurf app.lib (app.authenticate app.handlers.userSignup)) },
        { method := "POST", path := "/user/signup"
          handler := app.sessionManager.LoadAndSave
            (noSurf app.lib (app.authenticate app.handlers.userSignupPost)) },
        { method := "GET", path := "/user/login"
          handler := app.sessionManager.LoadAndSave
            (noSurf app.lib (app.authenticate app.handlers.userLogin)) },
        { method := "POST", path := "/user/login"
          handler := app.sessionManager.LoadAndSave
            (noSurf app.lib (app.authenticate app.handlers.userLoginPost)) },
        { method := "GET", path := "/snippet/create"
          handler := app.sessionManager.LoadAndSave
            (noSurf app.lib (app.authenticate
              (app.requireAuthentication app.handlers.snippetCreate))) },
        { method := "POST", path := "/snippet/create"
          handler := app.sessionManager.LoadAndSave
            (noSurf app.lib (app.authenticate
              (app.requireAuthentication app.handlers.snippetCreatePost))) },
        { method := "POST", path := "/user/logout"
          handler := app.sessionManager.LoadAndSave
            (noSurf app.lib (app.authenticate
              (app.requireAuthentication app.handlers.userLogoutPost))) } ] ∧
    (∀ (next : Handler σ) (r : http.Request) (world : World σ),
      app.logRequest next r world
        = next r { world with
            infoLog := world.infoLog
              ++ [r.RemoteAddr ++ " - " ++ r.Proto ++ " " ++ r.Method ++ " " ++ r.RequestURI] }) ∧
    (∀ next : Handler σ,
      noSurf app.lib next
        = app.lib.nosurfNew next { HttpOnly := true, Path := "/", Secure := true }) ∧
    (∀ r world, ∃ out, app.routes r world = Result.done out) ∧
    (∀ (h : Handler σ) (r : http.Request) (world : World σ) (ext1 : σ),
      app.sessionManager.GetInt r.ctx "authenticatedUserID" ≠ 0 →
      app.users.Exists (app.sessionManager.GetInt r.ctx "authenticatedUserID") world.ext
        = ((true, none), ext1) →
      ∃ r1 world1, app.authenticate (app.requireAuthentication h) r world = h r1 world1 ∧
        isAuthenticated r1 = true ∧ world1.w.calls = world.w.calls ∧ world1.ext = ext1) ∧
    (∀ (h : Handler σ) (r : http.Request) (world : World σ),
      app.sessionManager.GetInt r.ctx "authenticatedUserID" = 0 →
      http.Context.Value r.ctx http.ContextKey.isAuthenticatedContextKey = none →
      app.authenticate (app.requireAuthentication h) r world
        = Result.done { world with w := http.Redirect world.w r "/user/login" 303 }) := by
  have hthen : ∀ (a b c : Handler σ → Handler σ) (h : Handler σ),
      (alice.New [a, b, c]).Then h = a (b (c h)) := by
    intro a b c h
    simp [alice.Chain.Then, alice.New]
  have hroutes : app.routes = app.recoverPanic (app.logRequest (secureHeaders
      (app.lib.routerServeHTTP app.router))) := by
    unfold application.routes application.standard
    exact hthen _ _ _ _
  refine ⟨rfl, rfl, rfl, hthen, ?_, rfl, hroutes, rfl, ?_, ?_, ?_, ?_, ?_⟩
  · intro a b c d h
    rw [alice.Chain.ThenFunc, Chain_Then_Append, hthen]
  · intro next r world
    rfl
  · intro next
    rfl
  · intro r world
    rw [hroutes]
    simp only [application.recoverPanic]
    split
    · exact ⟨_, rfl⟩
    · exact ⟨_, rfl⟩
  · intro h r world ext1 hid hex
    exact authenticate_then_gate_passes app h r world ext1 hid hex
  · intro h r world hid hnew
    exact authenticate_then_gate_redirects app h r world hid hnew

/-- Witness of C10: through the whole of `routes` of the test application, a
`GET /snippet/create` with the session of the existing user 1 passes `authenticate` and
then the gate and reaches the business handler as authenticated. -/
theorem routes_middleware_order_witness :
    (testApp.sessionManager.GetInt
      (newRequest "GET" "/snippet/create" (sessionContext 1)).ctx "authenticatedUserID" ≠ 0 ∧
    testApp.users.Exists
      (testApp.sessionManager.GetInt
        (newRequest "GET" "/snippet/create" (sessionContext 1)).ctx "authenticatedUserID")
      emptyWorld.ext = ((true, none), [1]) ∧
    ∃ r1 world1,
      testApp.authenticate (testApp.requireAuthentication whoami)
        (newRequest "GET" "/snippet/create" (sessionContext 1)) emptyWorld
        = whoami r1 world1 ∧
      isAuthenticated r1 = true ∧ world1.w.calls = emptyWorld.w.calls ∧ world1.ext = [1]) ∧
    (testApp.routes (newRequest "GET" "/snippet/create" (sessionContext 1)) emptyWorld).world.w.calls
      = [http.WriterCall.Write "authenticated"] ∧
    (testApp.routes (newRequest "GET" "/snippet/create" (sessionContext 1)) emptyWorld).world.infoLog
      = ["127.0.0.1:4000 - HTTP/1.1 GET /snippet/create"] :=
  ⟨⟨by decide, by decide,
    (routes_middleware_order testApp).2.2.2.2.2.2.2.2.2.2.2.1 whoami
      (newRequest "GET" "/snippet/create" (sessionContext 1)) emptyWorld [1]
      (by decide) (by decide)⟩,
   by decide, by decide⟩

/-- A run of the whole chain: an anonymous `GET /snippet/create` through `routes` of the
test application is logged, gets the security headers and is redirected to the login page
without reaching the business handler. -/
theorem routes_test_run :
    testApp.routes (newRequest "GET" "/snippet/create" (sessionContext 0)) emptyWorld
      = Result.done
          { w :=
              { header :=
                  [("Content-Security-Policy",
                      ["default-src 'self'; style-src 'self' fonts.googleapis.com; font-src fonts.gstatic.com"]),
                    ("Referrer-Policy", ["origin-when-cross-origin"]),
                    ("X-Content-Type-Options", ["nosniff"]),
                    ("X-Frame-Options", ["deny"]),
                    ("X-Xss-Protection", ["0"]),
                    ("Location", ["/user/login"]),
                    ("Content-Type", ["text/html; charset=utf-8"])]
                calls :=
                  [http.WriterCall.WriteHeader 303,
                    http.WriterCall.Write "<a href=\"/user/login\">See Other</a>.\n\n"] }
            errorLog := []
            infoLog := ["127.0.0.1:4000 - HTTP/1.1 GET /snippet/create"]
            ext := [] } := by
  decide

/-! ## Rendering -/

/-- When the page is not in the cache, `render` is `serverError`: the error is logged, the
generic 500 response is sent, and neither the status of the caller nor any template output
is written. -/
theorem render_missing_page {δ : Type} (app : application σ)
    (templateCache : String → Option (Template δ)) (world : World σ) (status : Int)
    (page : String) (data : δ) (h : templateCache page = none) :
    app.render templateCache world status page data
      = app.serverError world ("the template " ++ page ++ " does not exist") ∧
    (app.render templateCache world status page data).w.calls
      = world.w.calls ++ [http.WriterCall.WriteHeader 500,
          http.WriterCall.Write "Internal Server Error\n"] := by
  have e : app.render templateCache world status page data
      = app.serverError world ("the template " ++ page ++ " does not exist") := by
    simp only [application.render, h]
  refine ⟨e, ?_⟩
  rw [e]
  exact serverError_calls app world _

/-- When the template exists and executes without error, `render` writes the status of the
caller and then the buffer, and logs nothing. -/
theorem render_success {δ : Type} (app : application σ)
    (templateCache : String → Option (Template δ)) (world : World σ) (status : Int)
    (page : String) (data : δ) (ts : Template δ) (buf : String)
    (h : templateCache page = some ts) (hx : ts.ExecuteTemplate "base" data = (buf, none)) :
    (app.render templateCache world status page data).w.calls
      = world.w.calls ++ http.WriterCall.WriteHeader status
          :: (if buf = "" then [] else [http.WriterCall.Write buf]) ∧
    (app.render templateCache world status page data).w.header = world.w.header ∧
    (app.render templateCache world status page data).errorLog = world.errorLog := by
  simp only [application.render, h, hx, bufferWriteTo, http.ResponseWriter.WriteHeader,
    http.ResponseWriter.Write]
  by_cases hb : buf = "" <;> simp [hb]

/-- When the template exists and its execution fails, `render` calls `serverError` and then
goes on: after the generic 500 response it calls `WriteHeader` with the status of the
caller and writes whatever the template had put into the buffer. -/
theorem render_execute_error {δ : Type} (app : application σ)
    (templateCache : String → Option (Template δ)) (world : World σ) (status : Int)
    (page : String) (data : δ) (ts : Template δ) (buf err : String)
    (h : templateCache page = some ts)
    (hx : ts.ExecuteTemplate "base" data = (buf, some err)) :
    (app.render templateCache world status page data).w.calls
      = world.w.calls ++ [http.WriterCall.WriteHeader 500,
          http.WriterCall.Write "Internal Server Error\n",
          http.WriterCall.WriteHeader status]
        ++ (if buf = "" then [] else [http.WriterCall.Write buf]) ∧
    (app.render templateCache world status page data).errorLog
      = world.errorLog ++ [err ++ "\n" ++ app.lib.debugStack] := by
  have hc := serverError_calls app world err
  simp only [application.render, h, hx, bufferWriteTo, http.ResponseWriter.WriteHeader,
    http.ResponseWriter.Write]
  by_cases hb : buf = ""
  · simp [hb, hc]
    rfl
  · simp [hb, hc]
    rfl

/-- C11, on the code: for a page in the cache whose execution fails after part of the output
was written, `render` sends the generic 500 response and then still calls `WriteHeader`
with the status of the caller and writes the partial output to the response. -/
theorem render_continues_after_error :
    (testTemplateCache "view.go.tpl").isSome = true ∧
    (testApp.render testTemplateCache emptyWorld 200 "view.go.tpl" ()).w.calls
      = [http.WriterCall.WriteHeader 500,
          http.WriterCall.Write "Internal Server Error\n",
          http.WriterCall.WriteHeader 200,
          http.WriterCall.Write "<html><h1>"] ∧
    (testApp.render testTemplateCache emptyWorld 200 "view.go.tpl" ()).w.calls
      ≠ (testApp.serverError emptyWorld
          "template: view.go.tpl:3:5: executing \"main\": nil pointer").w.calls := by
  refine ⟨by decide, by decide, by decide⟩

/-- Runs of `render` on the test cache: a page that renders, and a page that is missing. -/
theorem render_test_run :
    (testApp.render testTemplateCache emptyWorld 200 "home.go.tpl" ()).w.calls
      = [http.WriterCall.WriteHeader 200, http.WriterCall.Write "<html>home</html>"] ∧
    (testApp.render testTemplateCache emptyWorld 200 "missing.go.tpl" ()).w.calls
      = [http.WriterCall.WriteHeader 500,
          http.WriterCall.Write "Internal Server Error\n"] ∧
    (testApp.render testTemplateCache emptyWorld 200 "missing.go.tpl" ()).errorLog
      = ["the template missing.go.tpl does not exist\ngoroutine 1 [running]:"] := by
  refine ⟨by decide, by decide, by decide⟩

end web

/-! ## Counting runes -/

namespace utf8

/-- Every round of the loop takes at least one byte. -/
theorem advance_pos (c : Nat) (rest : Bytes) : 1 ≤ advance c rest := by
  by_cases hc : c < RuneSelf
  · unfold advance
    rw [if_pos hc]
  · have hx : first c = xx ∨ 2 ≤ first c % 8 := by
      unfold RuneSelf at hc
      unfold first xx
      split_ifs <;> omega
    unfold advance
    rw [if_neg hc]
    simp only []
    generalize first c = x at hx
    split_ifs <;> omega

/-- Fuel beyond the length of the string changes nothing. -/
theorem runeCountLoop_fuel (fuel : Nat) : ∀ s : Bytes, s.length ≤ fuel →
    runeCountLoop fuel s = runeCountLoop s.length s := by
  induction fuel using Nat.strong_induction_on with
  | _ fuel ih =>
    intro s hs
    cases s with
    | nil => cases fuel <;> rfl
    | cons c rest =>
      cases fuel with
      | zero => simp at hs
      | succ f =>
        simp only [List.length_cons, runeCountLoop]
        have hlen : (rest.drop (advance c rest - 1)).length ≤ rest.length := by
          simp [List.length_drop]
        have hf : rest.length ≤ f := by simpa using hs
        rw [ih f (Nat.lt_succ_self f) _ (le_trans hlen hf),
          ih rest.length (by omega) _ hlen]

/-- The code points: everything below `0x110000` but the surrogates. -/
theorem char_range (r : Char) :
    r.val.toNat < 0xD800 ∨ (0xDFFF < r.val.toNat ∧ r.val.toNat < 0x110000) := by
  have h := r.valid
  simp only [UInt32.isValidChar, Nat.isValidChar] at h
  exact h

theorem advance_ascii (b0 : Nat) (rest : Bytes) (h0 : b0 < 0x80) : advance b0 rest = 1 := by
  unfold advance
  rw [if_pos (by unfold RuneSelf; omega)]

theorem advance_two_of (b0 b1 x lo hi : Nat) (rest : Bytes) (hc : 0x80 ≤ b0)
    (hf : first b0 = x) (hx : x ≠ 0xF1) (hsz : x % 8 = 2)
    (hacc : acceptRanges (x / 16) = (lo, hi)) (h1 : lo ≤ b1 ∧ b1 ≤ hi) :
    advance b0 (b1 :: rest) = 2 := by
  have e1 : ¬ b0 < RuneSelf := by unfold RuneSelf; omega
  have e2 : ¬ x = xx := by unfold xx; exact hx
  unfold advance
  simp only [hf, hsz, hacc, if_neg e1, if_neg e2, List.length_cons, List.getD_cons_zero]
  rw [if_neg (by omega), if_neg (by omega)]
  rfl

theorem advance_three_of (b0 b1 b2 x lo hi : Nat) (rest : Bytes) (hc : 0x80 ≤ b0)
    (hf : first b0 = x) (hx : x ≠ 0xF1) (hsz : x % 8 = 3)
    (hacc : acceptRanges (x / 16) = (lo, hi)) (h1 : lo ≤ b1 ∧ b1 ≤ hi)
    (h2 : 0x80 ≤ b2 ∧ b2 ≤ 0xBF) :
    advance b0 (b1 :: b2 :: rest) = 3 := by
  have e1 : ¬ b0 < RuneSelf := by unfold RuneSelf; omega
  have e2 : ¬ x = xx := by unfold xx; exact hx
  have e3 : ¬ (b2 < locb ∨ hicb < b2) := by unfold locb hicb; omega
  unfold advance
  simp only [hf, hsz, hacc, if_neg e1, if_neg e2, List.length_cons, List.getD_cons_zero,
    List.getD_cons_succ]
  rw [if_neg (by omega), if_neg (by omega), if_neg (by omega), if_neg e3]
  rfl

theorem advance_four_of (b0 b1 b2 b3 x lo hi : Nat) (rest : Bytes) (hc : 0x80 ≤ b0)
    (hf : first b0 = x) (hx : x ≠ 0xF1) (hsz : x % 8 = 4)
    (hacc : acceptRanges (x / 16) = (lo, hi)) (h1 : lo ≤ b1 ∧ b1 ≤ hi)
    (h2 : 0x80 ≤ b2 ∧ b2 ≤ 0xBF) (h3 : 0x80 ≤ b3 ∧ b3 ≤ 0xBF) :
    advance b0 (b1 :: b2 :: b3 :: rest) = 4 := by
  have e1 : ¬ b0 < RuneSelf := by unfold RuneSelf; omega
  have e2 : ¬ x = xx := by unfold xx; exact hx
  have e3 : ¬ (b2 < locb ∨ hicb < b2) := by unfold locb hicb; omega
  have e4 : ¬ (b3 < locb ∨ hicb < b3) := by unfold locb hicb; omega
  unfold advance
  simp only [hf, hsz, hacc, if_neg e1, if_neg e2, List.length_cons, List.getD_cons_zero,
    List.getD_cons_succ]
  rw [if_neg (by omega), if_neg (by omega), if_neg (by omega), if_neg e3, if_neg (by omega),
    if_neg e4]

theorem first_of_two_byte_lead (b0 : Nat) (h : 0xC2 ≤ b0 ∧ b0 < 0xE0) : first b0 = 0x02 := by
  unfold first
  rw [if_neg (by omega), if_neg (by omega), if_pos (by omega)]

theorem first_of_three_byte_lead (b0 : Nat) (h : 0xE0 < b0 ∧ b0 < 0xF0) (hED : b0 ≠ 0xED) :
    first b0 = 0x03 := by
  unfold first
  rw [if_neg (by omega), if_neg (by omega), if_neg (by omega), if_neg (by omega)]
  by_cases h5 : b0 < 0xED
  · rw [if_pos h5]
  · rw [if_neg h5, if_neg hED, if_pos (by omega)]

theorem first_of_four_byte_lead (b0 : Nat) (h : 0xF0 < b0 ∧ b0 < 0xF4) : first b0 = 0x04 := by
  unfold first
  rw [if_neg (by omega), if_neg (by omega), if_neg (by omega), if_neg (by omega),
    if_neg (by omega), if_neg (by omega), if_neg (by omega), if_neg (by omega),
    if_pos (by omega)]

/-- On the encoding of a code point the loop advances by the whole encoding. -/
theorem advance_EncodeRune (r : Char) (rest : Bytes) :
    ∃ b bs, EncodeRune r = b :: bs ∧ advance b (bs ++ rest) = bs.length + 1 := by
  have hr := char_range r
  unfold EncodeRune
  simp only []
  generalize r.val.toNat = v at hr
  split_ifs with h1 h2 h3
  · exact ⟨_, _, rfl, advance_ascii _ _ h1⟩
  · exact ⟨_, _, rfl, advance_two_of _ _ 0x02 0x80 0xBF rest (by omega)
      (first_of_two_byte_lead _ (by omega)) (by decide) (by decide) (by decide) (by omega)⟩
  · refine ⟨_, _, rfl, ?_⟩
    have hcases : 0xE0 + v / 4096 = 0xE0 ∨ 0xE0 + v / 4096 = 0xED
        ∨ (0xE0 < 0xE0 + v / 4096 ∧ 0xE0 + v / 4096 < 0xF0 ∧ 0xE0 + v / 4096 ≠ 0xED) := by
      omega
    rcases hcases with hb | hb | ⟨hb1, hb2, hb3⟩
    · exact advance_three_of _ _ _ 0x13 0xA0 0xBF rest (by omega) (by rw [hb]; decide)
        (by decide) (by decide) (by decide) (by omega) (by omega)
    · exact advance_three_of _ _ _ 0x23 0x80 0x9F rest (by omega) (by rw [hb]; decide)
        (by decide) (by decide) (by decide) (by omega) (by omega)
    · exact advance_three_of _ _ _ 0x03 0x80 0xBF rest (by omega)
        (first_of_three_byte_lead _ ⟨hb1, hb2⟩ hb3) (by decide) (by decide) (by decide)
        (by omega) (by omega)
  · refine ⟨_, _, rfl, ?_⟩
    have hcases : 0xF0 + v / 262144 = 0xF0 ∨ 0xF0 + v / 262144 = 0xF4
        ∨ (0xF0 < 0xF0 + v / 262144 ∧ 0xF0 + v / 262144 < 0xF4) := by
      omega
    rcases hcases with hb | hb | hb
    · exact advance_four_of _ _ _ _ 0x34 0x90 0xBF rest (by omega) (by rw [hb]; decide)
        (by decide) (by decide) (by decide) (by omega) (by omega) (by omega)
    · exact advance_four_of _ _ _ _ 0x44 0x80 0x8F rest (by omega) (by rw [hb]; decide)
        (by decide) (by decide) (by decide) (by omega) (by omega) (by omega)
    · exact advance_four_of _ _ _ _ 0x04 0x80 0xBF rest (by omega)
        (first_of_four_byte_lead _ hb) (by decide) (by decide) (by decide) (by omega)
        (by omega) (by omega)

theorem runeCountLoop_EncodeRune (r : Char) (rest : Bytes) (fuel : Nat)
    (h : rest.length ≤ fuel) :
    runeCountLoop (fuel + 1) (EncodeRune r ++ rest) = runeCountLoop rest.length rest + 1 := by
  obtain ⟨b, bs, he, ha⟩ := advance_EncodeRune r rest
  rw [he]
  show runeCountLoop fuel ((bs ++ rest).drop (advance b (bs ++ rest) - 1)) + 1 = _
  rw [ha, Nat.add_sub_cancel, List.drop_left, runeCountLoop_fuel fuel rest h]

/-- On the bytes of a text `RuneCountInString` is the number of its code points. -/
theorem RuneCountInString_encode (s : List Char) :
    RuneCountInString (encode s) = s.length := by
  induction s with
  | nil => rfl
  | cons r rs ih =>
    obtain ⟨b, bs, he, _⟩ := advance_EncodeRune r (encode rs)
    have hlen : (encode (r :: rs)).length = (bs ++ encode rs).length + 1 := by
      show (EncodeRune r ++ encode rs).length = _
      rw [he]
      simp
    unfold RuneCountInString at ih ⊢
    rw [hlen]
    show runeCountLoop _ (EncodeRune r ++ encode rs) = _
    rw [runeCountLoop_EncodeRune r (encode rs) _ (by simp), ih]
    rfl

/-- The encoder and the counter on one, two, three and four byte encodings, and on bytes
that are not valid UTF-8, each of which counts as one rune. -/
theorem RuneCountInString_examples :
    encode "héllo".data = [0x68, 0xC3, 0xA9, 0x6C, 0x6C, 0x6F] ∧
    encode "€".data = [0xE2, 0x82, 0xAC] ∧
    encode "😀".data = [0xF0, 0x9F, 0x98, 0x80] ∧
    RuneCountInString (encode "héllo€😀".data) = 7 ∧
    RuneCountInString [0xFF, 0xC3, 0x41, 0xE2, 0x82] = 5 := by
  refine ⟨by decide, by decide, by decide, by decide, by decide⟩

end utf8

namespace validator

/-- C12: for every text `s` and every integer `n`, `MaxChars` on the string that holds `s`
is true exactly when the number of code points of `s` is at most `n`; and
`MaxChars("héllo", 5)` is true although the string has 6 bytes. -/
theorem MaxChars_counts_code_points (s : String) (n : Int) :
    (MaxChars (utf8.encode s.data) n = true ↔ (s.length : Int) ≤ n) ∧
    MaxChars (utf8.encode "héllo".data) 5 = true ∧
    (utf8.encode "héllo".data).length = 6 ∧
    MaxChars (utf8.encode "héllo".data) 4 = false := by
  refine ⟨?_, by decide, by decide, by decide⟩
  unfold MaxChars
  rw [decide_eq_true_iff, utf8.RuneCountInString_encode]
  rfl

end validator

/-! ## Dates -/

namespace web

/-- For a time that is not the zero time, `humaDate` is the day, the short month name, the
year, ` at `, the hour and the minute of the instant in UTC. -/
theorem humaDate_format (t : time.Time) (h : t.IsZero = false) :
    humaDate t =
      time.appendInt (time.civilFromDays (t.sec / 86400)).2.2 2 ++ " "
        ++ time.shortMonthName (time.civilFromDays (t.sec / 86400)).2.1 ++ " "
        ++ time.appendInt (time.civilFromDays (t.sec / 86400)).1 4 ++ " at "
        ++ time.appendInt (t.sec % 86400 / 3600) 2 ++ ":"
        ++ time.appendInt (t.sec % 86400 % 3600 / 60) 2 := by
  unfold humaDate
  rw [h]
  simp only [Bool.false_eq_true, if_false, time.Time.Format, time.Time.UTC, time.UTC,
    add_zero]
  show time.formatChunks _ _ _ _ _ ['0', '2', ' ', 'J', 'a', 'n', ' ', '2', '0', '0', '6', ' ',
    'a', 't', ' ', '1', '5', ':', '0', '4'] = _
  simp only [time.formatChunks]
  apply String.ext
  simp [String.data_append, String.singleton]

/-- C13: `humaDate` is the empty string on the zero time; on any other time it is the
instant, taken in UTC, written in the layout `02 Jan 2006 at 15:04`: day, short month name,
year, ` at `, hour and minute. It depends on the instant only, so two times that denote the
same instant in different locations give the same string. -/
theorem humaDate_utc_layout (t : time.Time) :
    (t.IsZero = true → humaDate t = "") ∧
    (t.IsZero = false →
      humaDate t = (t.UTC).Format "02 Jan 2006 at 15:04" ∧
      humaDate t =
        time.appendInt (time.civilFromDays (t.sec / 86400)).2.2 2 ++ " "
          ++ time.shortMonthName (time.civilFromDays (t.sec / 86400)).2.1 ++ " "
          ++ time.appendInt (time.civilFromDays (t.sec / 86400)).1 4 ++ " at "
          ++ time.appendInt (t.sec % 86400 / 3600) 2 ++ ":"
          ++ time.appendInt (t.sec % 86400 % 3600 / 60) 2) ∧
    (∀ t2 : time.Time, t2.sec = t.sec → t2.nsec = t.nsec → humaDate t2 = humaDate t) := by
  refine ⟨?_, ?_, ?_⟩
  · intro h
    simp [humaDate, h]
  · intro h
    refine ⟨?_, humaDate_format t h⟩
    simp [humaDate, h]
  · intro t2 hs hn
    obtain ⟨s1, n1, l1⟩ := t
    obtain ⟨s2, n2, l2⟩ := t2
    simp only at hs hn
    subst hs
    subst hn
    simp [humaDate, time.Time.IsZero, time.Time.UTC, time.Time.Format]

/-- Witness of C13: 10:15 in a zone one hour east of UTC and 09:15 in UTC on March 17, 2022
are the same instant and give the same string. -/
theorem humaDate_utc_layout_witness :
    (time.Date 2022 3 17 10 15 0 0 (time.FixedZone "CET" 3600)).sec
      = (time.Date 2022 3 17 9 15 0 0 time.UTC).sec ∧
    (time.Date 2022 3 17 10 15 0 0 (time.FixedZone "CET" 3600)).nsec
      = (time.Date 2022 3 17 9 15 0 0 time.UTC).nsec ∧
    humaDate (time.Date 2022 3 17 10 15 0 0 (time.FixedZone "CET" 3600))
      = humaDate (time.Date 2022 3 17 9 15 0 0 time.UTC) ∧
    humaDate (time.Date 2022 3 17 9 15 0 0 time.UTC) = "17 Mar 2022 at 09:15" :=
  ⟨by decide, by decide,
    (humaDate_utc_layout (time.Date 2022 3 17 9 15 0 0 time.UTC)).2.2
      (time.Date 2022 3 17 10 15 0 0 (time.FixedZone "CET" 3600)) (by decide) (by decide),
    by decide⟩

/-- The three cases of `TestHumanDate`, and some dates around leap days and the year 1. -/
theorem humaDate_test_run :
    humaDate (time.Date 2022 3 17 10 15 0 0 time.UTC) = "17 Mar 2022 at 10:15" ∧
    humaDate time.zeroTime = "" ∧
    humaDate (time.Date 2022 3 17 10 15 0 0 (time.FixedZone "CET" 3600))
      = "17 Mar 2022 at 09:15" ∧
    humaDate (time.Date 2024 2 29 23 59 59 0 time.UTC) = "29 Feb 2024 at 23:59" ∧
    humaDate (time.Date 1900 3 1 0 0 0 0 time.UTC) = "01 Mar 1900 at 00:00" ∧
    humaDate (time.Date 1 1 1 0 0 1 0 time.UTC) = "01 Jan 0001 at 00:00" ∧
    humaDate (time.Date 1 1 1 1 0 0 0 (time.FixedZone "CET" 3600)) = "" ∧
    (time.Date 1970 1 1 0 0 0 0 time.UTC).sec = 62135596800 := by
  refine ⟨by decide, by decide, by decide, by decide, by decide, by decide, by decide,
    by decide⟩

end web

end Snippetbox
